import Mathlib

/-!
# go-helpscout: a verification development

A shallow embedding of the client library (`http_client.go`, `auth.go`,
`helpscout.go`, `conversations.go`, `threads.go`, `users.go`) and theorems about
its retry loops, its token cache, its paginated listings and its request
builders.

Conventions of the embedding.

* A Go `error` is a value of `Err`; the three package-level sentinels
  (`ErrorRateLimit`, `ErrorUnauthorized`, `ErrorInterrupted`) are constructors, so
  the pointer comparison `err == ErrorRateLimit` is constructor equality.  Errors
  made by libraries (`net/http`, `encoding/json`, `io/ioutil`) are `Err.lib`, which
  is never a sentinel.
* The mutable state of a `Client` (the `auth` cache) and the observable actions
  of a run (requests handed to the transport, sleeps, clock readings) live in
  `World`; every stateful function takes a `World` and returns the new one.
* Everything outside the package is an `Env`: the answers of the remote side, the
  readings of the clock and the functions of `encoding/json` and `net/http` the
  package calls.
* Loops are structural recursions on a fuel argument; `none` means the fuel ran
  out.  The two bounded retry loops are given enough fuel by their callers
  (see `getToken_returns`, `doApiCall_returns`); the listings, whose loop has no
  bound, take the fuel as an argument.
* The remote side answers the requests sent to `helpscoutAuthEndpoint` from one
  stream of answers and all other requests from another.  Statements about
  `doApiCall` therefore assume that its resource is not `/oauth2/token`, as is the
  case for the three resources of the package, and statements that count requests
  assume that `json.Marshal` and `http.NewRequest` accept them (`Env.accepts`).
-/

namespace Helpscout

/-! ## Errors and results -/

/-- One entry of `_embedded.errors` in the vendor error envelope decoded by `doRequest`. -/
structure ErrRespItem where
  Path : String
  Message : String
  Source : String
  deriving DecidableEq, Repr

/-- The vendor error envelope `errResp` of `doRequest`. -/
structure ErrResp where
  Message : String
  Errors : List ErrRespItem
  deriving DecidableEq, Repr

/-- The anonymous struct `responseJson` of `getToken`. -/
structure TokenResponse where
  ExpiresIn : Int
  Token : String
  TokenType : String
  deriving DecidableEq, Repr

/-- Go `error` values of the package. -/
inductive Err where
  /-- The sentinel `ErrorRateLimit`. -/
  | rateLimit
  /-- The sentinel `ErrorUnauthorized`. -/
  | unauthorized
  /-- The sentinel `ErrorInterrupted`. -/
  | interrupted
  /-- An error value made by a library function. -/
  | lib (msg : String)
  /-- `errors.New(msg)`. -/
  | new (msg : String)
  /-- `errors.Wrap(cause, msg)`. -/
  | wrap (cause : Err) (msg : String)
  /-- `errors.Errorf("Remote server returned an error: %d", status)` when `envelope` is
  `none`, and `errors.Errorf("Remote server returned an error: %d [%+v]", status, errResp)`
  when it is `some errResp`. -/
  | remote (status : Int) (envelope : Option ErrResp)
  /-- `errors.Errorf("Remote server returned an invalid content type: %s", ct)`. -/
  | invalidContentType (ct : String)
  /-- `errors.Errorf("Authorization server returned an invalid data: %+v", responseJson)`. -/
  | invalidAuthData (resp : TokenResponse)
  deriving DecidableEq, Repr

/-- A Go result `(value, error)`: the value when the error is nil, the error otherwise. -/
inductive Res (α : Type) where
  | ok (a : α)
  | err (e : Err)
  deriving DecidableEq, Repr

/-- The result of a library call that may fail with a message. -/
inductive LibResult (α : Type) where
  | ok (a : α)
  | fail (msg : String)
  deriving DecidableEq, Repr

/-! ## Requests -/

/-- The type `url.Values`, as a list of keys with their values. -/
structure Values where
  entries : List (String × List String)
  deriving DecidableEq, Repr

/-- The empty `url.Values{}`. -/
def Values.empty : Values := ⟨[]⟩

/-- The method `url.Values.Set`: the key now maps to the single value. -/
def Values.Set (v : Values) (key value : String) : Values :=
  if v.entries.any (fun p => p.1 == key) then
    ⟨v.entries.map (fun p => if p.1 == key then (key, [value]) else p)⟩
  else
    ⟨v.entries ++ [(key, [value])]⟩

/-- The method `url.Values.Del`. -/
def Values.Del (v : Values) (key : String) : Values :=
  ⟨v.entries.filter (fun p => p.1 != key)⟩

/-- The method `url.Values.Get`: the first value of the key, `""` when absent. -/
def Values.Get (v : Values) (key : String) : String :=
  match v.entries.find? (fun p => p.1 == key) with
  | some (_, x :: _) => x
  | _ => ""

/-- The type `authReqData`. -/
structure authReqData where
  ClientId : String
  ClientSecret : String
  GrantType : String
  deriving DecidableEq, Repr

/-- The type `ConversationThread`; `CustomerEmail` is the field `Customer.Email`. -/
structure ConversationThread where
  Typ : String
  Body : String
  Cc : List String
  Bcc : List String
  CustomerEmail : String
  deriving DecidableEq, Repr

/-- The type `ConversationCreateRequest`; `CustomerEmail` is the field `Customer.Email`. -/
structure ConversationCreateRequest where
  Typ : String
  CustomerEmail : String
  Subject : String
  MailboxId : Nat
  Tags : List String
  Status : String
  CreatedBy : Nat
  Threads : List ConversationThread
  deriving DecidableEq, Repr

/-- The values the package passes as `reqData`. -/
inductive ReqData where
  | auth (d : authReqData)
  | conversation (d : ConversationCreateRequest)
  deriving DecidableEq, Repr

/-- The type `http.Header`, restricted to single-valued keys. -/
abbrev Header := List (String × String)

/-- The method `http.Header.Set` (all keys the package uses are already canonical). -/
def headerSet (h : Header) (key value : String) : Header :=
  if h.any (fun p => p.1 == key) then
    h.map (fun p => if p.1 == key then (key, value) else p)
  else
    h ++ [(key, value)]

/-- The `*http.Request` handed to the transport.  `reqData` stands for the body, which is
the JSON encoding of that value. -/
structure Request where
  url : String
  method : String
  header : Header
  query : Option Values
  reqData : Option ReqData
  deriving DecidableEq, Repr

/-- What `ioutil.ReadAll(response.Body)` gives. -/
abbrev ReadResult := LibResult String

/-- The part of an `*http.Response` the package looks at. -/
structure Response where
  StatusCode : Int
  ContentType : String
  Body : ReadResult
  deriving DecidableEq, Repr

/-- What `h.Do(req)` gives: a response, or an error of the transport. -/
abbrev Answer := LibResult Response

/-! ## Environment and state -/

/-- Everything outside the package.  `authAnswer k` is the answer to the k-th request sent to
the token endpoint, `apiAnswer k` the answer to the k-th request sent anywhere else, and
`clock k` the k-th reading of `time.Now()` in nanoseconds. -/
structure Env where
  /-- The error of `json.Marshal(reqData)`, if any. -/
  marshalError : ReqData → Option String
  /-- The error of `http.NewRequest(method, url, body)`, if any. -/
  newRequestError : String → String → Option String
  authAnswer : Nat → Answer
  apiAnswer : Nat → Answer
  clock : Nat → Int
  /-- The call `json.Unmarshal(body, &errResp)`. -/
  unmarshalErrResp : String → LibResult ErrResp
  /-- The call `json.Unmarshal(body, &responseJson)` of `getToken`, given the old value. -/
  unmarshalToken : String → TokenResponse → LibResult TokenResponse

/-- An observable action of a run. -/
inductive Event where
  /-- Entry into `auth.getToken(forceUpdate)`. -/
  | tokenCall (forceUpdate : Bool)
  /-- The call `h.Do(req)`. -/
  | request (req : Request)
  /-- The call `time.Sleep(time.Second)`. -/
  | sleep
  deriving DecidableEq, Repr

/-- The state of a `Client` (the fields of its `auth`) and the record of the run so far:
how many requests were sent to the token endpoint and elsewhere, how many times the clock
was read, and the actions in order. -/
structure World where
  appId : String
  appKey : String
  token : String
  tokenExpireTime : Int
  authSent : Nat
  apiSent : Nat
  clockReads : Nat
  log : List Event
  deriving DecidableEq, Repr

/-- The constant `helpscoutAuthEndpoint`. -/
def helpscoutAuthEndpoint : String := "https://api.helpscout.net/v2/oauth2/token"

/-- The constant `helpscoutApiEndpoint`. -/
def helpscoutApiEndpoint : String := "https://api.helpscout.net/v2"

/-- The call `time.Now()`. -/
def timeNow (E : Env) (w : World) : Int × World :=
  (E.clock w.clockReads, { w with clockReads := w.clockReads + 1 })

/-- The call `time.Sleep(time.Second)`. -/
def sleepSecond (w : World) : World :=
  { w with log := w.log ++ [Event.sleep] }

/-- The call `h.Do(req)`: the request is recorded and answered by the remote side. -/
def transportDo (E : Env) (req : Request) (w : World) : Answer × World :=
  if req.url = helpscoutAuthEndpoint then
    (E.authAnswer w.authSent,
      { w with authSent := w.authSent + 1, log := w.log ++ [Event.request req] })
  else
    (E.apiAnswer w.apiSent,
      { w with apiSent := w.apiSent + 1, log := w.log ++ [Event.request req] })

/-! ## http_client.go -/

/-- Whether the first list starts with the second. -/
def startsWith : List Char → List Char → Bool
  | _, [] => true
  | [], _ :: _ => false
  | c :: s, p :: ps => c == p && startsWith s ps

/-- Whether the second list occurs in the first as a block. -/
def containsChars : List Char → List Char → Bool
  | [], sub => startsWith [] sub
  | c :: s, sub => startsWith (c :: s) sub || containsChars s sub

/-- The function `strings.Contains`. -/
def stringsContains (s substr : String) : Bool :=
  containsChars s.data substr.data

/-- The part of `doRequest` after `h.Do(req)` has returned a response (from
`defer response.Body.Close()` to the end): the result is the error, or the value of the
response target `respData` (`none` is a nil target). -/
def handleResponse {ρ : Type} (E : Env) (unmarshal : String → ρ → LibResult ρ)
    (response : Response) (respData : Option ρ) : Res (Option ρ) :=
  if response.StatusCode = 201 then
    Res.ok respData
  else if response.StatusCode ≠ 200 then
    if response.StatusCode = 429 then
      Res.err Err.rateLimit
    else if response.StatusCode = 401 then
      Res.err Err.unauthorized
    else
      match response.Body with
      | LibResult.fail msg =>
        Res.err (Err.wrap (Err.lib msg) "Unable to read response body to decode error")
      | LibResult.ok body =>
        if body.length ≠ 0 then
          match E.unmarshalErrResp body with
          | LibResult.fail msg =>
            Res.err (Err.wrap (Err.lib msg) "Unable to parse error response-body as json")
          | LibResult.ok errResp =>
            Res.err (Err.remote response.StatusCode (some errResp))
        else
          Res.err (Err.remote response.StatusCode none)
  else if (!stringsContains response.ContentType "application/json" &&
      !stringsContains response.ContentType "application/hal+json") = true then
    Res.err (Err.invalidContentType response.ContentType)
  else
    match respData with
    | none => Res.ok none
    | some target =>
      match response.Body with
      | LibResult.fail msg => Res.err (Err.wrap (Err.lib msg) "Unable to read response body")
      | LibResult.ok body =>
        match unmarshal body target with
        | LibResult.fail msg =>
          Res.err (Err.wrap (Err.lib msg) "Unable to parse response-body as json")
        | LibResult.ok v => Res.ok (some v)

/-- The request `doRequest` hands to the transport: the one made by `http.NewRequest`, with
the headers `Accept` and `Content-Type`, then the caller's headers, then the query. -/
def buildRequest (url method : String) (headers : Option Header) (query : Option Values)
    (reqData : Option ReqData) : Request :=
  let header0 := headerSet (headerSet [] "Accept" "application/json")
    "Content-Type" "application/json"
  let header := match headers with
    | some hs => hs.foldl (fun h kv => headerSet h kv.1 kv.2) header0
    | none => header0
  { url := url, method := method, header := header, query := query, reqData := reqData }

/-- The method `httpClient.doRequest`.  `headers`, `query`, `reqData` and `respData` are
`none` where the Go argument is nil; `unmarshal` is `json.Unmarshal` at the type of the
response target. -/
def doRequest {ρ : Type} (E : Env) (unmarshal : String → ρ → LibResult ρ)
    (url method : String) (headers : Option Header) (query : Option Values)
    (reqData : Option ReqData) (respData : Option ρ) (w : World) :
    Res (Option ρ) × World :=
  match (match reqData with
         | some d => E.marshalError d
         | none => none) with
  | some msg => (Res.err (Err.wrap (Err.lib msg) "Unable to marshal request data"), w)
  | none =>
    match E.newRequestError method url with
    | some msg => (Res.err (Err.wrap (Err.lib msg) "Unable to prepare new request"), w)
    | none =>
      match transportDo E (buildRequest url method headers query reqData) w with
      | (LibResult.fail msg, w1) =>
        (Res.err (Err.wrap (Err.lib msg) "Unable to process request"), w1)
      | (LibResult.ok response, w1) => (handleResponse E unmarshal response respData, w1)

/-! ## auth.go -/

/-- The duration `10 * time.Minute`, in nanoseconds. -/
def tenMinutes : Int := 10 * (60 * 1000000000)

/-- A product of type `time.Duration` (a signed 64-bit integer), wrapped as Go does. -/
def wrapInt64 (x : Int) : Int :=
  (x + 2 ^ 63) % 2 ^ 64 - 2 ^ 63

/-- The retry loop of `getToken`; `responseJson` is the response target, declared before
the loop.  The result is the decoded response when the loop is left by `break`, and the
error when it is left by `return`. -/
def getTokenLoop (E : Env) (reqData : authReqData) :
    Nat → Nat → TokenResponse → World → Option (Res TokenResponse × World)
  | 0, _, _, _ => none
  | fuel + 1, repeatCnt, responseJson, w =>
    match doRequest E E.unmarshalToken helpscoutAuthEndpoint "POST" none none
        (some (ReqData.auth reqData)) (some responseJson) w with
    | (Res.err Err.rateLimit, w1) =>
      let w2 := sleepSecond w1
      let repeatCnt := repeatCnt + 1
      if repeatCnt > 10 then
        some (Res.err (Err.new "Unable to submit auth-token update request (rate-limit)"), w2)
      else
        getTokenLoop E reqData fuel repeatCnt responseJson w2
    | (Res.err Err.unauthorized, w1) =>
      some (Res.err (Err.wrap Err.unauthorized
        "Unable to submit auth-token update request (authorization failed)"), w1)
    | (Res.err e, w1) =>
      some (Res.err (Err.wrap e "Unable to submit auth-token update request"), w1)
    | (Res.ok r, w1) => some (Res.ok (r.getD responseJson), w1)

/-- The method `auth.getToken`.  The clock is read in the guard only when the first two
conjuncts hold (`&&` short-circuits). -/
def getToken (E : Env) (forceUpdate : Bool) (w : World) : Option (Res String × World) :=
  let w0 := { w with log := w.log ++ [Event.tokenCall forceUpdate] }
  let guard : Bool × World :=
    if (!forceUpdate && w0.token != "") = true then
      let (now, w1) := timeNow E w0
      (decide (w0.tokenExpireTime > now + tenMinutes), w1)
    else
      (false, w0)
  if guard.1 = true then
    some (Res.ok guard.2.token, guard.2)
  else
    let reqData : authReqData :=
      { ClientId := w.appId, ClientSecret := w.appKey, GrantType := "client_credentials" }
    match getTokenLoop E reqData 11 0 ⟨0, "", ""⟩ guard.2 with
    | none => none
    | some (Res.err e, w1) => some (Res.err e, w1)
    | some (Res.ok responseJson, w1) =>
      if responseJson.Token = "" ∨ responseJson.ExpiresIn ≤ 0 then
        some (Res.err (Err.invalidAuthData responseJson), w1)
      else
        let (now, w2) := timeNow E w1
        let w3 := { w2 with
          token := responseJson.Token
          tokenExpireTime := now + wrapInt64 (1000000000 * responseJson.ExpiresIn) }
        some (Res.ok w3.token, w3)

/-! ## helpscout.go -/

/-- How the inner loop of `doApiCall` is left: by `break`, or by `return` of a result. -/
inductive InnerExit (ρ : Type) where
  | brk
  | ret (r : Res (Option ρ))
  deriving DecidableEq, Repr

/-- The inner loop of `doApiCall`. -/
def doApiCallInner {ρ : Type} (E : Env) (unmarshal : String → ρ → LibResult ρ)
    (url method : String) (authHeader : Header) (query : Option Values)
    (reqData : Option ReqData) (respData : Option ρ) :
    Nat → Nat → World → Option (InnerExit ρ × World)
  | 0, _, _ => none
  | fuel + 1, repeatCnt, w =>
    match doRequest E unmarshal url method (some authHeader) query reqData respData w with
    | (Res.err Err.rateLimit, w1) =>
      let w2 := sleepSecond w1
      let repeatCnt := repeatCnt + 1
      if repeatCnt > 10 then
        some (InnerExit.ret (Res.err (Err.new "Unable to submit a request (rate-limit)")), w2)
      else
        doApiCallInner E unmarshal url method authHeader query reqData respData
          fuel repeatCnt w2
    | (Res.err Err.unauthorized, w1) => some (InnerExit.brk, w1)
    | (r, w1) => some (InnerExit.ret r, w1)

/-- The outer loop of `doApiCall`. -/
def doApiCallLoop {ρ : Type} (E : Env) (unmarshal : String → ρ → LibResult ρ)
    (method resource : String) (query : Option Values)
    (reqData : Option ReqData) (respData : Option ρ) :
    Nat → Nat → Bool → World → Option (Res (Option ρ) × World)
  | 0, _, _, _ => none
  | fuel + 1, repeatAllCnt, forceTokenUpdate, w =>
    match getToken E forceTokenUpdate w with
    | none => none
    | some (Res.err e, w1) => some (Res.err (Err.wrap e "Unable to update Auth Token"), w1)
    | some (Res.ok token, w1) =>
      let url := helpscoutApiEndpoint ++ resource
      let authHeader : Header := [("Authorization", "Bearer " ++ token)]
      match doApiCallInner E unmarshal url method authHeader query reqData respData
          11 0 w1 with
      | none => none
      | some (InnerExit.ret r, w2) => some (r, w2)
      | some (InnerExit.brk, w2) =>
        let repeatAllCnt := repeatAllCnt + 1
        if repeatAllCnt > 3 then
          some (Res.err (Err.new "Unable to submit a request (authorization failed)"), w2)
        else
          doApiCallLoop E unmarshal method resource query reqData respData
            fuel repeatAllCnt true w2

/-- The method `Client.doApiCall`. -/
def doApiCall {ρ : Type} (E : Env) (unmarshal : String → ρ → LibResult ρ)
    (method resource : String) (query : Option Values)
    (reqData : Option ReqData) (respData : Option ρ) (w : World) :
    Option (Res (Option ρ) × World) :=
  doApiCallLoop E unmarshal method resource query reqData respData 4 0 false w

/-! ## Panics and fuel -/

/-- The outcome of a top-level call: it returns, it panics, or the model ran out of fuel. -/
inductive Run (α : Type) where
  | done (a : α)
  | panic (msg : String)
  | outOfFuel
  deriving DecidableEq, Repr

/-- A fuelled computation as a `Run`. -/
def Run.ofOption {α : Type} : Option α → Run α
  | some a => Run.done a
  | none => Run.outOfFuel

/-! ## users.go, threads.go and the listing loop -/

/-- The type `Page`. -/
structure Page where
  Size : Nat
  TotalElements : Nat
  TotalPages : Nat
  Number : Nat
  deriving DecidableEq, Repr

/-- The type `User`. -/
structure User where
  Id : Nat
  Typ : String
  FirstName : String
  LastName : String
  Email : String
  deriving DecidableEq, Repr

/-- The response target of a listing, `generalListApiCallReq` with `Embedded` pointing to a
struct that holds one slice (`cList`, `tList`, `uList`): the items and the page. -/
structure ListPage (α : Type) where
  items : List α
  Page : Page
  deriving DecidableEq, Repr

/-- The response target before the call: no items, the zero `Page`. -/
def ListPage.zero {α : Type} : ListPage α :=
  ⟨[], ⟨0, 0, 0, 0⟩⟩

/-- A listing callback (`ConversationLister`, `ThreadLister`, `UsersLister`): the answer of
`Process(item)`, given the items the callback was shown before.  The callback does not use
the client. -/
abbrev Lister (α : Type) := List α → α → Bool

/-- The loop `for _, item := range items { if !lister.Process(item) { return ErrorInterrupted } }`
of a listing: whether it ran to the end, and the items shown to the callback so far. -/
def processItems {α : Type} (lister : Lister α) : List α → List α → Bool × List α
  | [], seen => (true, seen)
  | item :: rest, seen =>
    if (!lister seen item) = true then
      (false, seen ++ [item])
    else
      processItems lister rest (seen ++ [item])

/-- The loop shared, up to the resource and the item type, by `listConversationsImpl`,
`ListThreads` and `ListUsers`.  The result is the returned error (`none` is nil), the final
value of the query, the items shown to the callback and the world. -/
def listLoop {α : Type} (E : Env) (unmarshal : String → ListPage α → LibResult (ListPage α))
    (resource : String) (lister : Lister α) :
    Nat → Int → Values → List α → World → Option (Option Err × Values × List α × World)
  | 0, _, _, _, _ => none
  | fuel + 1, page, query, seen, w =>
    match doApiCall E unmarshal "GET" resource (some query) none (some ListPage.zero) w with
    | none => none
    | some (Res.err err, w1) => some (some err, query, seen, w1)
    | some (Res.ok req, w1) =>
      let req := req.getD ListPage.zero
      if req.Page.TotalPages = 0 then
        some (none, query, seen, w1)
      else
        match processItems lister req.items seen with
        | (false, seen1) => some (some Err.interrupted, query, seen1, w1)
        | (true, seen1) =>
          if req.Page.Number = req.Page.TotalPages then
            some (none, query, seen1, w1)
          else
            let page := page + 1
            let query := query.Set "page" (toString page)
            listLoop E unmarshal resource lister fuel page query seen1 w1

/-- The method `Client.ListUsers`. -/
def ListUsers (E : Env) (unmarshal : String → ListPage User → LibResult (ListPage User))
    (lister : Lister User) (fuel : Nat) (seen : List User) (w : World) :
    Option (Option Err × Values × List User × World) :=
  listLoop E unmarshal "/users" lister fuel 1 Values.empty seen w

/-- The method `Client.ListThreads`, for any type of the items. -/
def ListThreads {Thread : Type} (E : Env)
    (unmarshal : String → ListPage Thread → LibResult (ListPage Thread))
    (conversationId : Nat) (lister : Lister Thread) (fuel : Nat) (seen : List Thread)
    (w : World) : Option (Option Err × Values × List Thread × World) :=
  listLoop E unmarshal ("/conversations/" ++ toString conversationId ++ "/threads") lister
    fuel 1 Values.empty seen w

/-! ## conversations.go -/

/-- The constant `Inclusively`. -/
def Inclusively : Int := 1

/-- The constant `Exclusively`. -/
def Exclusively : Int := 2

/-- The constant `ConversationTypeEmail`. -/
def ConversationTypeEmail : String := "email"

/-- The constant `ConversationStatusOpen`. -/
def ConversationStatusOpen : String := "open"

/-- The constant `ConversationStatusClosed`. -/
def ConversationStatusClosed : String := "closed"

/-- The constant `ConversationStatusActive`. -/
def ConversationStatusActive : String := "active"

/-- The constant `ConversationStatusPending`. -/
def ConversationStatusPending : String := "pending"

/-- The constant `ConversationStatusSpam`. -/
def ConversationStatusSpam : String := "spam"

/-- The constant `ThreadTypeReply` of threads.go. -/
def ThreadTypeReply : String := "reply"

/-- The type `filterUintValues`; `cType` is a `ConditionType`, a Go `int`. -/
structure filterUintValues where
  cType : Int
  values : List Nat
  deriving DecidableEq, Repr

/-- The type `filterStringValues`. -/
structure filterStringValues where
  cType : Int
  values : List String
  deriving DecidableEq, Repr

/-- The type `filterTimePeriod`, over the type of `time.Time` values; `since` and `till` are
the fields `from` and `to`. -/
structure filterTimePeriod (Time : Type) where
  cType : Int
  since : Time
  till : Time

/-- The type `ConversationLookupFilter`; a nil pointer field is `none`. -/
structure ConversationLookupFilter (Time : Type) where
  mailboxIds : Option filterUintValues
  statuses : Option filterStringValues
  types : Option filterStringValues
  states : Option filterStringValues
  createdPeriod : Option (filterTimePeriod Time)
  updatedPeriod : Option (filterTimePeriod Time)

/-- The function `NewConversationLookupFilter`. -/
def NewConversationLookupFilter {Time : Type} : ConversationLookupFilter Time :=
  ⟨none, none, none, none, none, none⟩

/-- The function `getConditionType`, on the variadic argument. -/
def getConditionType (cType : List Int) : Run Int :=
  match cType with
  | [] => Run.done Inclusively
  | [c] => Run.done c
  | _ :: _ :: _ => Run.panic "There must be only one condition type"

/-- The method `ConversationLookupFilter.Status`. -/
def ConversationLookupFilter.Status {Time : Type} (f : ConversationLookupFilter Time)
    (statuses : List String) (cType : List Int) : Run (ConversationLookupFilter Time) :=
  match getConditionType cType with
  | Run.done c => Run.done { f with statuses := some ⟨c, statuses⟩ }
  | Run.panic msg => Run.panic msg
  | Run.outOfFuel => Run.outOfFuel

/-- The method `ConversationLookupFilter.MailboxIds`. -/
def ConversationLookupFilter.MailboxIds {Time : Type} (f : ConversationLookupFilter Time)
    (ids : List Nat) (cType : List Int) : Run (ConversationLookupFilter Time) :=
  match getConditionType cType with
  | Run.done c => Run.done { f with mailboxIds := some ⟨c, ids⟩ }
  | Run.panic msg => Run.panic msg
  | Run.outOfFuel => Run.outOfFuel

/-- The method `ConversationLookupFilter.CreatedTime`. -/
def ConversationLookupFilter.CreatedTime {Time : Type} (f : ConversationLookupFilter Time)
    (since till : Time) (cType : List Int) : Run (ConversationLookupFilter Time) :=
  match getConditionType cType with
  | Run.done c => Run.done { f with createdPeriod := some ⟨c, since, till⟩ }
  | Run.panic msg => Run.panic msg
  | Run.outOfFuel => Run.outOfFuel

/-- The method `ConversationLookupFilter.ModifiedTime`. -/
def ConversationLookupFilter.ModifiedTime {Time : Type} (f : ConversationLookupFilter Time)
    (since till : Time) (cType : List Int) : Run (ConversationLookupFilter Time) :=
  match getConditionType cType with
  | Run.done c => Run.done { f with updatedPeriod := some ⟨c, since, till⟩ }
  | Run.panic msg => Run.panic msg
  | Run.outOfFuel => Run.outOfFuel

/-- The methods of `time.Time` the package calls. -/
structure TimeLib (Time : Type) where
  /-- The method `Time.IsZero`. -/
  IsZero : Time → Bool
  /-- The method `Time.Format`, given the layout. -/
  Format : Time → String → String

/-- The order in which a `range` over a Go map with the given keys visits them: some
arrangement of the keys. -/
structure MapRange where
  keys : List String → List String
  perm : ∀ l, (keys l).Perm l

/-- The request value built by `CreateConversation` (the statements before the call of
`doApiCall`); `recipients` is the argument `to`, and indexing `to[0]` panics on an empty
slice. -/
def createConversationRequest (sender : User) (mailboxId : Nat) (recipients cc bcc : List String)
    (subject body : String) : Run ConversationCreateRequest :=
  match recipients with
  | [] => Run.panic "runtime error: index out of range [0] with length 0"
  | to0 :: toRest =>
    Run.done
      { Typ := ConversationTypeEmail
        Status := ConversationStatusActive
        CreatedBy := sender.Id
        Tags := ["upstream"]
        Threads := [{ Typ := ThreadTypeReply, Body := body, Cc := cc ++ toRest, Bcc := bcc,
                      CustomerEmail := to0 }]
        Subject := subject
        MailboxId := mailboxId
        CustomerEmail := to0 }

/-- The method `Client.CreateConversation`; `recipients` is the argument `to`. -/
def CreateConversation (E : Env) (sender : User) (mailboxId : Nat) (recipients cc bcc : List String)
    (subject body : String) (w : World) : Run (Res (Option Unit) × World) :=
  match createConversationRequest sender mailboxId recipients cc bcc subject body with
  | Run.panic msg => Run.panic msg
  | Run.outOfFuel => Run.outOfFuel
  | Run.done conversation =>
    Run.ofOption (doApiCall E (fun _ (u : Unit) => LibResult.ok u) "POST" "/conversations" none
      (some (ReqData.conversation conversation)) none w)

/-- The method `Client.listConversationsImpl`, for any type of the items.  The query is
the caller's `*url.Values`: it is changed in place and returned. -/
def listConversationsImpl {Conversation : Type} (E : Env)
    (unmarshal : String → ListPage Conversation → LibResult (ListPage Conversation))
    (query : Values) (lister : Lister Conversation) (fuel : Nat) (seen : List Conversation)
    (w : World) : Option (Option Err × Values × List Conversation × World) :=
  listLoop E unmarshal "/conversations" lister fuel 1 (query.Del "page") seen w

/-- The function `prepareListOfStatuses`; a nil `filter` is `none`. -/
def prepareListOfStatuses {Time : Type} (R : MapRange)
    (filter : Option (ConversationLookupFilter Time)) : Run (List String) :=
  match filter with
  | none => Run.panic "runtime error: invalid memory address or nil pointer dereference"
  | some filter =>
    match filter.statuses with
    | none => Run.done []
    | some statuses =>
      if statuses.cType = Inclusively then
        Run.done ([] ++ statuses.values)
      else if statuses.cType = Exclusively then
        let m := [ConversationStatusOpen, ConversationStatusClosed, ConversationStatusActive,
          ConversationStatusPending, ConversationStatusSpam]
        let m := statuses.values.foldl (fun m v => m.filter (fun k => k != v)) m
        Run.done ([] ++ R.keys m)
      else
        Run.panic "Unknown condition type"

/-- The function `formatFromToTimePeriod`. -/
def formatFromToTimePeriod {Time : Type} (T : TimeLib Time) (since till : Time) :
    String × String :=
  let fromStr := if (!T.IsZero since) = true then T.Format since "2006-01-02T15:04:05Z" else "*"
  let toStr := if (!T.IsZero till) = true then T.Format till "2006-01-02T15:04:05Z" else "*"
  (fromStr, toStr)

/-- The function `prepareListConversationQuery`; a nil `filter` is `none`.  The error it
returns is always nil. -/
def prepareListConversationQuery {Time : Type} (T : TimeLib Time)
    (filter : Option (ConversationLookupFilter Time)) : Res Values :=
  match filter with
  | none => Res.ok Values.empty
  | some filter =>
    let queryValues : List String := []
    let queryValues :=
      match filter.mailboxIds with
      | some mailboxIds =>
        let b := mailboxIds.values.map (fun v => "mailboxid:" ++ toString v)
        queryValues ++ ["(" ++ String.intercalate " OR " b ++ ")"]
      | none => queryValues
    let queryValues :=
      match filter.createdPeriod with
      | some createdPeriod =>
        let ft := formatFromToTimePeriod T createdPeriod.since createdPeriod.till
        queryValues ++ ["createdAt:[" ++ ft.1 ++ " TO " ++ ft.2 ++ "]"]
      | none => queryValues
    let queryValues :=
      match filter.updatedPeriod with
      | some updatedPeriod =>
        let ft := formatFromToTimePeriod T updatedPeriod.since updatedPeriod.till
        queryValues ++ ["modifiedAt:[" ++ ft.1 ++ " TO " ++ ft.2 ++ "]"]
      | none => queryValues
    let query := Values.empty
    let query :=
      if queryValues.length ≠ 0 then
        query.Set "query" ("(" ++ String.intercalate " AND " queryValues ++ ")")
      else query
    Res.ok query

/-- The loop `for _, status := range statuses` of `ListConversations`. -/
def listConversationsStatuses {Conversation : Type} (E : Env)
    (unmarshal : String → ListPage Conversation → LibResult (ListPage Conversation))
    (lister : Lister Conversation) (fuel : Nat) :
    List String → Values → List Conversation → World →
      Option (Option Err × Values × List Conversation × World)
  | [], query, seen, w => some (none, query, seen, w)
  | status :: rest, query, seen, w =>
    match listConversationsImpl E unmarshal (query.Set "status" status) lister fuel seen w with
    | none => none
    | some (some err, query1, seen1, w1) => some (some err, query1, seen1, w1)
    | some (none, query1, seen1, w1) =>
      listConversationsStatuses E unmarshal lister fuel rest query1 seen1 w1

/-- The method `Client.ListConversations`; a nil `filter` is `none`.  Every traversal gets
the fuel `fuel`. -/
def ListConversations {Time Conversation : Type} (E : Env) (T : TimeLib Time) (R : MapRange)
    (unmarshal : String → ListPage Conversation → LibResult (ListPage Conversation))
    (filter : Option (ConversationLookupFilter Time)) (lister : Lister Conversation)
    (fuel : Nat) (seen : List Conversation) (w : World) :
    Run (Option Err × Values × List Conversation × World) :=
  match prepareListConversationQuery T filter with
  | Res.err err => Run.done (some err, Values.empty, seen, w)
  | Res.ok query =>
    match filter with
    | none => Run.panic "runtime error: invalid memory address or nil pointer dereference"
    | some f =>
      if f.statuses.isNone then
        Run.ofOption (listConversationsImpl E unmarshal query lister fuel seen w)
      else
        match prepareListOfStatuses R filter with
        | Run.panic msg => Run.panic msg
        | Run.outOfFuel => Run.outOfFuel
        | Run.done statuses =>
          Run.ofOption (listConversationsStatuses E unmarshal lister fuel statuses query seen w)

/-! ## Vocabulary of the statements -/

/-- The libraries accept the requests of the package: `json.Marshal` and `http.NewRequest`
do not fail (they cannot, on the request types and the fixed methods and URLs of this
package). -/
def Env.accepts (E : Env) : Prop :=
  (∀ d, E.marshalError d = none) ∧ (∀ m u, E.newRequestError m u = none)

/-- The transport answered with a response of the given status. -/
def hasStatus (a : Answer) (code : Int) : Prop :=
  ∃ r, a = LibResult.ok r ∧ r.StatusCode = code

/-- What `doRequest` returns for an answer of the transport. -/
def answerResult {ρ : Type} (E : Env) (unmarshal : String → ρ → LibResult ρ)
    (respData : Option ρ) : Answer → Res (Option ρ)
  | LibResult.fail msg => Res.err (Err.wrap (Err.lib msg) "Unable to process request")
  | LibResult.ok response => handleResponse E unmarshal response respData

/-- The world after `n` requests `req` were sent outside the token endpoint. -/
def sentApi (w : World) (req : Request) : World :=
  { w with apiSent := w.apiSent + 1, log := w.log ++ [Event.request req] }

/-- The world after a request `req` was sent to the token endpoint. -/
def sentAuth (w : World) (req : Request) : World :=
  { w with authSent := w.authSent + 1, log := w.log ++ [Event.request req] }

/-- The actions of `n` rate-limited attempts: each is the request followed by a sleep. -/
def retries (req : Request) : Nat → List Event
  | 0 => []
  | n + 1 => Event.request req :: Event.sleep :: retries req n

/-- The `forceUpdate` arguments of the calls of `getToken` in a log, in order. -/
def tokenCalls (log : List Event) : List Bool :=
  log.filterMap (fun e => match e with
    | Event.tokenCall f => some f
    | _ => none)

/-- The requests of a log sent to the token endpoint, in order. -/
def authRequests (log : List Event) : List Request :=
  log.filterMap (fun e => match e with
    | Event.request r => if r.url = helpscoutAuthEndpoint then some r else none
    | _ => none)

/-- The requests of a log sent outside the token endpoint, in order. -/
def apiRequests (log : List Event) : List Request :=
  log.filterMap (fun e => match e with
    | Event.request r => if r.url = helpscoutAuthEndpoint then none else some r
    | _ => none)

/-- The number of one-second sleeps in a log. -/
def sleepCount (log : List Event) : Nat :=
  log.countP (fun e => decide (e = Event.sleep))

/-- The request `getToken` sends. -/
def tokenRequest (w : World) : Request :=
  buildRequest helpscoutAuthEndpoint "POST" none none
    (some (ReqData.auth
      { ClientId := w.appId, ClientSecret := w.appKey, GrantType := "client_credentials" }))

/-- The request `doApiCall` sends with the given token. -/
def apiRequest (method resource : String) (query : Option Values) (reqData : Option ReqData)
    (token : String) : Request :=
  buildRequest (helpscoutApiEndpoint ++ resource) method
    (some [("Authorization", "Bearer " ++ token)]) query reqData

/-- The guard of `getToken`: the cached token is returned without a request. -/
def cacheValid (E : Env) (forceUpdate : Bool) (w : World) : Prop :=
  forceUpdate = false ∧ w.token ≠ "" ∧ w.tokenExpireTime > E.clock w.clockReads + tenMinutes

instance (E : Env) (forceUpdate : Bool) (w : World) : Decidable (cacheValid E forceUpdate w) := by
  unfold cacheValid; infer_instance

/-- The world after `n` rate-limited attempts of `req` at the token endpoint. -/
def retriedAuth (w : World) (req : Request) (n : Nat) : World :=
  { w with authSent := w.authSent + n, log := w.log ++ retries req n }

/-- The world after `n` rate-limited attempts of `req` outside the token endpoint. -/
def retriedApi (w : World) (req : Request) (n : Nat) : World :=
  { w with apiSent := w.apiSent + n, log := w.log ++ retries req n }

/-- From `w` to `w1` only the token endpoint was talked to: the cache, the clock and the
count of other requests are as before, and the log grew by actions that are neither calls
of `getToken` nor requests outside the token endpoint. -/
def AuthOnly (w w1 : World) : Prop :=
  w1.appId = w.appId ∧ w1.appKey = w.appKey ∧ w1.token = w.token ∧
  w1.tokenExpireTime = w.tokenExpireTime ∧ w1.apiSent = w.apiSent ∧
  w1.clockReads = w.clockReads ∧ w.authSent ≤ w1.authSent ∧
  ∃ evs, w1.log = w.log ++ evs ∧ tokenCalls evs = [] ∧ apiRequests evs = []

/-- The world in which `getToken` returns the cached token: the call is logged and the
clock was read once. -/
def cachedWorld (w : World) : World :=
  { w with clockReads := w.clockReads + 1, log := w.log ++ [Event.tokenCall false] }

/-- The world in which `getToken` enters its retry loop: the call is logged, and the clock
was read if the guard got as far as the expiry test. -/
def fetchEntry (forceUpdate : Bool) (w : World) : World :=
  if (!forceUpdate && w.token != "") = true then
    { w with clockReads := w.clockReads + 1, log := w.log ++ [Event.tokenCall forceUpdate] }
  else
    { w with log := w.log ++ [Event.tokenCall forceUpdate] }

/-- The world after `getToken` has stored the decoded token `rj`, coming from `w1`. -/
def storedWorld (E : Env) (rj : TokenResponse) (w1 : World) : World :=
  { w1 with
    clockReads := w1.clockReads + 1
    token := rj.Token
    tokenExpireTime := E.clock w1.clockReads + wrapInt64 (1000000000 * rj.ExpiresIn) }

/-- What `getToken` does with the outcome of its retry loop (the code after the loop). -/
def finishFetch (E : Env) :
    Option (Res TokenResponse × World) → Option (Res String × World)
  | none => none
  | some (Res.err e, w1) => some (Res.err e, w1)
  | some (Res.ok rj, w1) =>
    if rj.Token = "" ∨ rj.ExpiresIn ≤ 0 then
      some (Res.err (Err.invalidAuthData rj), w1)
    else
      some (Res.ok rj.Token, storedWorld E rj w1)

/-- The decoded token response is one `getToken` accepts. -/
def validToken (t : TokenResponse) : Prop :=
  t.Token ≠ "" ∧ 0 < t.ExpiresIn

/-- From `w` to `w1` one call `getToken(forceUpdate)` ran: it sent at most 11 requests, all
to the token endpoint, and logged its call first. -/
def TokenStep (forceUpdate : Bool) (w w1 : World) : Prop :=
  w1.appId = w.appId ∧ w1.appKey = w.appKey ∧ w1.apiSent = w.apiSent ∧
  w.authSent ≤ w1.authSent ∧ w1.authSent ≤ w.authSent + 11 ∧
  ∃ evs, w1.log = w.log ++ Event.tokenCall forceUpdate :: evs ∧
    tokenCalls evs = [] ∧ apiRequests evs = []

/-- From `w` to `w1` one inner loop of `doApiCall` ran with the request `req`: the cache and
the token endpoint were not touched, and the log grew only by sends of `req` and sleeps. -/
def InnerStep (req : Request) (w w1 : World) : Prop :=
  w1.appId = w.appId ∧ w1.appKey = w.appKey ∧ w1.token = w.token ∧
  w1.tokenExpireTime = w.tokenExpireTime ∧ w1.authSent = w.authSent ∧
  w1.clockReads = w.clockReads ∧ w.apiSent ≤ w1.apiSent ∧
  ∃ evs, w1.log = w.log ++ evs ∧ ∀ e, e ∈ evs → e = Event.sleep ∨ e = Event.request req

/-! ## Vocabulary of the pagination statements -/

/-- The callback answers true on each of `items`, shown in order after `seen`. -/
def acceptsAll {α : Type} (lister : Lister α) (seen items : List α) : Prop :=
  ∀ (i : Nat) (x : α), items[i]? = some x → lister (seen ++ items.take i) x = true

/-- The items of a list of pages, in order. -/
def itemsOf {α : Type} : List (ListPage α) → List α
  | [] => []
  | p :: rest => p.items ++ itemsOf rest

/-- A page after which the listing goes on: it has results and is not the last one. -/
def continues {α : Type} (p : ListPage α) : Prop :=
  p.Page.TotalPages ≠ 0 ∧ p.Page.Number ≠ p.Page.TotalPages

/-- The cached token of `w` stays valid whenever the clock is read, and the next answers of
the API are successes whose bodies decode to `pages`, in order. -/
def servesPages {α : Type} (E : Env)
    (unmarshal : String → ListPage α → LibResult (ListPage α)) (w : World)
    (pages : List (ListPage α)) : Prop :=
  w.token ≠ "" ∧ (∀ k, w.tokenExpireTime > E.clock k + tenMinutes) ∧
  ∀ (i : Nat) (p : ListPage α), pages[i]? = some p →
    answerResult E unmarshal (some ListPage.zero) (E.apiAnswer (w.apiSent + i)) =
      Res.ok (some p)

/-- The world after one page was fetched with a valid cached token: the call of `getToken`
and the request are logged. -/
def pageWorld (w : World) (resource : String) (query : Values) : World :=
  sentApi (cachedWorld w) (apiRequest "GET" resource (some query) none w.token)

/-- The page counter, the query and the world after `n` pages were fetched and the listing
went on after each. -/
def afterPages (resource : String) : Nat → Int → Values → World → Int × Values × World
  | 0, page, query, w => (page, query, w)
  | n + 1, page, query, w =>
    afterPages resource n (page + 1) (query.Set "page" (toString (page + 1)))
      (pageWorld w resource query)

/-- Specification of a paginated listing `run fuel seen w` (the returned error, the items
shown to the callback so far, the world), for a callback `lister`: whenever the token stays
valid and the API serves `pages`,
* if the first page has `totalPages = 0`, the listing returns nil, the callback is not
  invoked and one page was requested;
* if the pages before the last go on, the last has `number = totalPages` (not 0) and the
  callback accepts every item, the listing returns nil after the callback was invoked on the
  items of all these pages in order, and no further page is requested;
* if the pages before the current one go on and the callback accepts the items up to an
  item `x` of the current page and answers false on `x`, the listing returns
  `ErrorInterrupted`; the callback was invoked on the items up to and including `x` and on no
  later item, and no further page is requested.
In each case the result is reached with any fuel that covers the pages requested. -/
def PaginationContract {α : Type} (E : Env)
    (unmarshal : String → ListPage α → LibResult (ListPage α)) (lister : Lister α)
    (run : Nat → List α → World → Option (Option Err × List α × World)) : Prop :=
  ∀ (w : World) (seen : List α) (pages : List (ListPage α)),
    servesPages E unmarshal w pages →
    (∀ p rest, pages = p :: rest → p.Page.TotalPages = 0 →
      ∀ fuel, 1 ≤ fuel → ∃ w1, run fuel seen w = some (none, seen, w1) ∧
        w1.apiSent = w.apiSent + 1) ∧
    (∀ pre last, pages = pre ++ [last] → (∀ p, p ∈ pre → continues p) →
      last.Page.TotalPages ≠ 0 → last.Page.Number = last.Page.TotalPages →
      acceptsAll lister seen (itemsOf pages) →
      ∀ fuel, pages.length ≤ fuel →
        ∃ w1, run fuel seen w = some (none, seen ++ itemsOf pages, w1) ∧
          w1.apiSent = w.apiSent + pages.length) ∧
    (∀ pre cur a x b, pages = pre ++ [cur] → (∀ p, p ∈ pre → continues p) →
      cur.Page.TotalPages ≠ 0 → cur.items = a ++ x :: b →
      acceptsAll lister seen (itemsOf pre ++ a) →
      lister (seen ++ (itemsOf pre ++ a)) x = false →
      ∀ fuel, pages.length ≤ fuel →
        ∃ w1, run fuel seen w =
            some (some Err.interrupted, seen ++ (itemsOf pre ++ a) ++ [x], w1) ∧
          w1.apiSent = w.apiSent + pages.length)

/-! ## Vocabulary of the status filter -/

/-- The fixed universe of status values of `prepareListOfStatuses`. -/
def statusUniverse : List String :=
  [ConversationStatusOpen, ConversationStatusClosed, ConversationStatusActive,
    ConversationStatusPending, ConversationStatusSpam]

/-- The keys left in the map of `prepareListOfStatuses` after the values were deleted. -/
def remainingStatuses (values : List String) : List String :=
  values.foldl (fun m v => m.filter (fun k => k != v)) statusUniverse

/-- The queries of the traversals `ListConversations` runs for a list of statuses, starting
from the query `q`: for each status the `status` parameter is set, and the traversal
deletes the `page` parameter before its first request. -/
def statusQueries (q : Values) : List String → List Values
  | [] => []
  | status :: rest =>
    (q.Set "status" status).Del "page" :: statusQueries ((q.Set "status" status).Del "page") rest

/-- Every answer of the API is a success without results (`totalPages = 0`). -/
def servesNoResults {α : Type} (E : Env)
    (unmarshal : String → ListPage α → LibResult (ListPage α)) : Prop :=
  ∀ k, ∃ p : ListPage α,
    answerResult E unmarshal (some ListPage.zero) (E.apiAnswer k) = Res.ok (some p) ∧
    p.Page.TotalPages = 0

/-! ## Concrete remote sides and clients, for the examples -/

/-- An answer with the given status, no content type and an empty body. -/
def statusAnswer (code : Int) : Answer :=
  LibResult.ok ⟨code, "", LibResult.ok ""⟩

/-- An answer with status 200, content type `application/json` and the given body. -/
def jsonAnswer (body : String) : Answer :=
  LibResult.ok ⟨200, "application/json", LibResult.ok body⟩

/-- A stream that answers the first `n` requests with `a` and all later ones with `b`. -/
def firstThen (n : Nat) (a b : Answer) : Nat → Answer :=
  fun k => if k < n then a else b

/-- An environment with the given answers, a clock that stands at 0, libraries that accept
every request, an error decoder that rejects every body and a token decoder that takes the
whole body as the token, valid for 3600 seconds. -/
def exampleEnv (auth api : Nat → Answer) : Env where
  marshalError := fun _ => none
  newRequestError := fun _ _ => none
  authAnswer := auth
  apiAnswer := api
  clock := fun _ => 0
  unmarshalErrResp := fun _ => LibResult.fail "invalid character"
  unmarshalToken := fun body _ => LibResult.ok ⟨3600, body, "bearer"⟩

/-- A new client: nothing cached, nothing sent. -/
def freshWorld : World :=
  ⟨"id", "key", "", 0, 0, 0, 0, []⟩

/-- A client whose cached token `"cached"` expires 11 minutes after time 0. -/
def warmWorld : World :=
  ⟨"id", "key", "cached", 660000000000, 0, 0, 0, []⟩

/-- A `json.Unmarshal` for a response target of type `Unit`: every body is accepted. -/
def unmarshalUnit : String → Unit → LibResult Unit :=
  fun _ u => LibResult.ok u

/-- Both endpoints answer 429 twice and then succeed (the token endpoint with the token
`"fresh"`). -/
def twiceLimitedEnv : Env :=
  exampleEnv (firstThen 2 (statusAnswer 429) (jsonAnswer "fresh"))
    (firstThen 2 (statusAnswer 429) (jsonAnswer ""))

/-- Both endpoints answer 429 eleven times and then succeed. -/
def elevenLimitedEnv : Env :=
  exampleEnv (firstThen 11 (statusAnswer 429) (jsonAnswer "fresh"))
    (firstThen 11 (statusAnswer 429) (jsonAnswer ""))

/-- The token endpoint always succeeds; the API answers 401 three times and then 200. -/
def thriceUnauthorizedEnv : Env :=
  exampleEnv (fun _ => jsonAnswer "fresh") (firstThen 3 (statusAnswer 401) (jsonAnswer ""))

/-- The token endpoint always succeeds; the API answers 401 to every request. -/
def alwaysUnauthorizedEnv : Env :=
  exampleEnv (fun _ => jsonAnswer "fresh") (fun _ => statusAnswer 401)

/-- The token endpoint always succeeds; the API answers 401 once and then 404. -/
def onceUnauthorizedEnv : Env :=
  exampleEnv (fun _ => jsonAnswer "fresh") (firstThen 1 (statusAnswer 401) (statusAnswer 404))

/-- Both endpoints answer 429 ten times and then succeed. -/
def tenLimitedEnv : Env :=
  exampleEnv (firstThen 10 (statusAnswer 429) (jsonAnswer "fresh"))
    (firstThen 10 (statusAnswer 429) (jsonAnswer ""))

/-- Both endpoints always succeed; the token endpoint hands out `"fresh"`. -/
def healthyEnv : Env :=
  exampleEnv (fun _ => jsonAnswer "fresh") (fun _ => jsonAnswer "")

/-- The API answers every request with status 500 and an HTML page. -/
def brokenEnv : Env :=
  exampleEnv (fun _ => jsonAnswer "fresh")
    (fun _ => LibResult.ok ⟨500, "text/html", LibResult.ok "<html>"⟩)

/-- A `json.Unmarshal` for a response target of type `Unit` that rejects every body. -/
def unmarshalNothing : String → Unit → LibResult Unit :=
  fun _ _ => LibResult.fail "unexpected end of JSON input"

/-! ## The query syntax and the creation request, as the specification words them -/

/-- Specification: a bound of a period is `*` when it is the zero time, and the time in the
layout `2006-01-02T15:04:05Z` when it is set. -/
def renderBound {Time : Type} (T : TimeLib Time) (t : Time) : String :=
  if T.IsZero t = true then "*" else T.Format t "2006-01-02T15:04:05Z"

/-- Specification: the clause `(mailboxid:N1 OR mailboxid:N2 ...)` over the ids in order. -/
def mailboxClause (ids : List Nat) : String :=
  "(" ++ String.intercalate " OR " (ids.map (fun n => "mailboxid:" ++ toString n)) ++ ")"

/-- Specification: the clause `name:[from TO to]` of a period. -/
def periodClause {Time : Type} (T : TimeLib Time) (name : String)
    (period : filterTimePeriod Time) : String :=
  name ++ ":[" ++ renderBound T period.since ++ " TO " ++ renderBound T period.till ++ "]"

/-- Specification: the clauses of a filter, in the order mailboxes, created period,
modified period, one for each dimension that is set. -/
def queryClauses {Time : Type} (T : TimeLib Time) (f : ConversationLookupFilter Time) :
    List String :=
  (f.mailboxIds.map (fun m => mailboxClause m.values)).toList ++
  (f.createdPeriod.map (periodClause T "createdAt")).toList ++
  (f.updatedPeriod.map (periodClause T "modifiedAt")).toList

/-- Specification: the value of the `query` parameter for a list of clauses. -/
def queryExpression (clauses : List String) : String :=
  "(" ++ String.intercalate " AND " clauses ++ ")"

/-- A toy `time.Time`: seconds since the zero time, formatted as the number followed by
`Z` whatever the layout. -/
def secondsTime : TimeLib Nat where
  IsZero := fun t => t == 0
  Format := fun t _ => toString t ++ "Z"

/-- A filter with mailboxes 7 and 9, a created period from 5 with no end, and no modified
period. -/
def exampleFilter : ConversationLookupFilter Nat :=
  { mailboxIds := some ⟨Inclusively, [7, 9]⟩
    statuses := none
    types := none
    states := none
    createdPeriod := some ⟨Inclusively, 5, 0⟩
    updatedPeriod := none }

/-- Three users, for the examples. -/
def userA : User := ⟨1, "user", "Ada", "A", "a@example.org"⟩

/-- The second user. -/
def userB : User := ⟨2, "user", "Bob", "B", "b@example.org"⟩

/-- The third user. -/
def userC : User := ⟨3, "user", "Cy", "C", "c@example.org"⟩

/-- Page 1 of 2, with the first two users. -/
def usersPage1 : ListPage User := ⟨[userA, userB], ⟨2, 3, 2, 1⟩⟩

/-- Page 2 of 2, with the third user. -/
def usersPage2 : ListPage User := ⟨[userC], ⟨2, 3, 2, 2⟩⟩

/-- An answer without results: `totalPages` is 0. -/
def usersNone : ListPage User := ⟨[], ⟨50, 0, 0, 1⟩⟩

/-- A `json.Unmarshal` for user listings that knows three bodies. -/
def unmarshalUsers : String → ListPage User → LibResult (ListPage User) :=
  fun body _ =>
    if body = "page1" then LibResult.ok usersPage1
    else if body = "page2" then LibResult.ok usersPage2
    else if body = "none" then LibResult.ok usersNone
    else LibResult.fail "invalid character"

/-- The API serves the two pages of users. -/
def twoPagesEnv : Env :=
  exampleEnv (fun _ => jsonAnswer "fresh") (firstThen 1 (jsonAnswer "page1") (jsonAnswer "page2"))

/-- The API has no results. -/
def noResultsEnv : Env :=
  exampleEnv (fun _ => jsonAnswer "fresh") (fun _ => jsonAnswer "none")

/-- A callback that accepts every user. -/
def acceptEvery : Lister User := fun _ _ => true

/-- A callback that stops at the second user. -/
def stopAtB : Lister User := fun _ u => u.Id != 2

/-- A map iteration that visits the keys in the order they are listed. -/
def listedOrder : MapRange where
  keys := fun l => l
  perm := fun l => List.Perm.refl l

/-- A map iteration that visits the keys in the reverse order. -/
def reverseOrder : MapRange where
  keys := fun l => l.reverse
  perm := fun l => List.reverse_perm l

/-- A filter that excludes the statuses `open` and `closed`. -/
def excludeOpenClosed : ConversationLookupFilter Nat :=
  { mailboxIds := none
    statuses := some ⟨Exclusively, [ConversationStatusOpen, ConversationStatusClosed]⟩
    types := none
    states := none
    createdPeriod := none
    updatedPeriod := none }

/-- A `json.Unmarshal` for conversation listings (items are numbers here) that decodes
every body to an answer without results. -/
def unmarshalNoConversations : String → ListPage Nat → LibResult (ListPage Nat) :=
  fun _ _ => LibResult.ok ⟨[], ⟨50, 0, 0, 1⟩⟩

/-! ## Lemmas: the transport -/

theorem append_left_cancel_string (a b c : String) (h : a ++ b = a ++ c) : b = c := by
  have h1 := congrArg String.data h
  simp only [String.data_append] at h1
  exact String.ext (List.append_cancel_left h1)

theorem apiUrl_ne_authEndpoint (resource : String) (h : resource ≠ "/oauth2/token") :
    helpscoutApiEndpoint ++ resource ≠ helpscoutAuthEndpoint := by
  intro hc
  have h2 : helpscoutAuthEndpoint = helpscoutApiEndpoint ++ "/oauth2/token" := by decide
  rw [h2] at hc
  exact h (append_left_cancel_string _ _ _ hc)

theorem buildRequest_url (url method : String) (headers : Option Header)
    (query : Option Values) (reqData : Option ReqData) :
    (buildRequest url method headers query reqData).url = url := rfl

theorem doRequest_api {ρ : Type} (E : Env) (unmarshal : String → ρ → LibResult ρ)
    (url method : String) (headers : Option Header) (query : Option Values)
    (reqData : Option ReqData) (respData : Option ρ) (w : World)
    (hE : E.accepts) (hurl : url ≠ helpscoutAuthEndpoint) :
    doRequest E unmarshal url method headers query reqData respData w =
      (answerResult E unmarshal respData (E.apiAnswer w.apiSent),
        sentApi w (buildRequest url method headers query reqData)) := by
  have hm : (match reqData with
         | some d => E.marshalError d
         | none => none) = none := by
    cases reqData with
    | none => rfl
    | some d => exact hE.1 d
  unfold doRequest
  rw [hm]
  simp only [hE.2 method url, transportDo, buildRequest_url, if_neg hurl]
  cases h : E.apiAnswer w.apiSent <;> simp [answerResult, sentApi]

theorem doRequest_auth {ρ : Type} (E : Env) (unmarshal : String → ρ → LibResult ρ)
    (method : String) (headers : Option Header) (query : Option Values)
    (reqData : Option ReqData) (respData : Option ρ) (w : World)
    (hE : E.accepts) :
    doRequest E unmarshal helpscoutAuthEndpoint method headers query reqData respData w =
      (answerResult E unmarshal respData (E.authAnswer w.authSent),
        sentAuth w (buildRequest helpscoutAuthEndpoint method headers query reqData)) := by
  have hm : (match reqData with
         | some d => E.marshalError d
         | none => none) = none := by
    cases reqData with
    | none => rfl
    | some d => exact hE.1 d
  unfold doRequest
  rw [hm]
  simp only [hE.2 method helpscoutAuthEndpoint, transportDo, buildRequest_url, if_true]
  cases h : E.authAnswer w.authSent <;> simp [answerResult, sentAuth]

theorem answerResult_429 {ρ : Type} (E : Env) (unmarshal : String → ρ → LibResult ρ)
    (respData : Option ρ) (a : Answer) (h : hasStatus a 429) :
    answerResult E unmarshal respData a = Res.err Err.rateLimit := by
  obtain ⟨r, rfl, hr⟩ := h
  simp [answerResult, handleResponse, hr]

theorem answerResult_401 {ρ : Type} (E : Env) (unmarshal : String → ρ → LibResult ρ)
    (respData : Option ρ) (a : Answer) (h : hasStatus a 401) :
    answerResult E unmarshal respData a = Res.err Err.unauthorized := by
  obtain ⟨r, rfl, hr⟩ := h
  simp [answerResult, handleResponse, hr]

/-! ## Lemmas: the log -/

theorem tokenCalls_append (a b : List Event) :
    tokenCalls (a ++ b) = tokenCalls a ++ tokenCalls b := by
  simp [tokenCalls]

theorem apiRequests_append (a b : List Event) :
    apiRequests (a ++ b) = apiRequests a ++ apiRequests b := by
  simp [apiRequests]

theorem authRequests_append (a b : List Event) :
    authRequests (a ++ b) = authRequests a ++ authRequests b := by
  simp [authRequests]

theorem sleepCount_append (a b : List Event) :
    sleepCount (a ++ b) = sleepCount a + sleepCount b := by
  simp [sleepCount]

theorem sleepCount_retries (req : Request) (n : Nat) : sleepCount (retries req n) = n := by
  induction n with
  | zero => rfl
  | succ n ih =>
    have h : sleepCount (retries req (n + 1)) = sleepCount (retries req n) + 1 := by
      simp [sleepCount, retries, List.countP_cons]
    rw [h, ih]

theorem tokenCalls_retries (req : Request) (n : Nat) : tokenCalls (retries req n) = [] := by
  induction n with
  | zero => rfl
  | succ n ih =>
    have h : tokenCalls (retries req (n + 1)) = tokenCalls (retries req n) := by
      simp [tokenCalls, retries]
    rw [h, ih]

theorem apiRequests_retries (req : Request) (n : Nat) (h : req.url ≠ helpscoutAuthEndpoint) :
    apiRequests (retries req n) = List.replicate n req := by
  induction n with
  | zero => rfl
  | succ n ih =>
    have h1 : apiRequests (retries req (n + 1)) = req :: apiRequests (retries req n) := by
      simp [apiRequests, retries, h]
    rw [h1, ih, List.replicate_succ]

theorem authRequests_retries (req : Request) (n : Nat) (h : req.url = helpscoutAuthEndpoint) :
    authRequests (retries req n) = List.replicate n req := by
  induction n with
  | zero => rfl
  | succ n ih =>
    have h1 : authRequests (retries req (n + 1)) = req :: authRequests (retries req n) := by
      simp [authRequests, retries, h]
    rw [h1, ih, List.replicate_succ]

theorem retries_succ_append (req : Request) (n : Nat) :
    retries req (n + 1) = retries req n ++ [Event.request req, Event.sleep] := by
  induction n with
  | zero => rfl
  | succ n ih =>
    show Event.request req :: Event.sleep :: retries req (n + 1) =
      (Event.request req :: Event.sleep :: retries req n) ++ [Event.request req, Event.sleep]
    rw [ih]
    rfl

theorem authOnly_refl (w : World) : AuthOnly w w :=
  ⟨rfl, rfl, rfl, rfl, rfl, rfl, Nat.le_refl _, [], by simp, rfl, rfl⟩

theorem authOnly_trans {a b c : World} (h1 : AuthOnly a b) (h2 : AuthOnly b c) :
    AuthOnly a c := by
  obtain ⟨i1, k1, t1, x1, p1, c1, s1, e1, l1, n1, r1⟩ := h1
  obtain ⟨i2, k2, t2, x2, p2, c2, s2, e2, l2, n2, r2⟩ := h2
  refine ⟨i2.trans i1, k2.trans k1, t2.trans t1, x2.trans x1, p2.trans p1, c2.trans c1,
    Nat.le_trans s1 s2, e1 ++ e2, ?_, ?_, ?_⟩
  · rw [l2, l1, List.append_assoc]
  · rw [tokenCalls_append, n1, n2]; rfl
  · rw [apiRequests_append, r1, r2]; rfl

theorem authOnly_sleep (w : World) : AuthOnly w (sleepSecond w) :=
  ⟨rfl, rfl, rfl, rfl, rfl, rfl, Nat.le_refl _, [Event.sleep], rfl, rfl, rfl⟩

theorem authOnly_sent (w : World) (req : Request) (h : req.url = helpscoutAuthEndpoint) :
    AuthOnly w (sentAuth w req) :=
  ⟨rfl, rfl, rfl, rfl, rfl, rfl, Nat.le_succ _, [Event.request req], rfl, rfl,
    by simp [apiRequests, h]⟩

/-! ## Lemmas: the retry loop of `getToken` -/

theorem doRequest_auth_world {ρ : Type} (E : Env) (unmarshal : String → ρ → LibResult ρ)
    (method : String) (headers : Option Header) (query : Option Values)
    (reqData : Option ReqData) (respData : Option ρ) (w : World) :
    (doRequest E unmarshal helpscoutAuthEndpoint method headers query reqData respData w).2 = w ∨
    (doRequest E unmarshal helpscoutAuthEndpoint method headers query reqData respData w).2 =
      sentAuth w (buildRequest helpscoutAuthEndpoint method headers query reqData) := by
  unfold doRequest
  split
  · exact Or.inl rfl
  · split
    · exact Or.inl rfl
    · simp only [transportDo, buildRequest_url, if_true]
      cases E.authAnswer w.authSent <;> exact Or.inr rfl

theorem doRequest_auth_frame {ρ : Type} (E : Env) (unmarshal : String → ρ → LibResult ρ)
    (method : String) (headers : Option Header) (query : Option Values)
    (reqData : Option ReqData) (respData : Option ρ) (w : World) :
    AuthOnly w
      (doRequest E unmarshal helpscoutAuthEndpoint method headers query reqData respData w).2 ∧
    (doRequest E unmarshal helpscoutAuthEndpoint method headers query reqData respData w).2.authSent
      ≤ w.authSent + 1 := by
  rcases doRequest_auth_world E unmarshal method headers query reqData respData w with h | h
  · rw [h]; exact ⟨authOnly_refl w, Nat.le_succ _⟩
  · rw [h]; exact ⟨authOnly_sent w _ rfl, Nat.le_refl _⟩

theorem getTokenLoop_frame (E : Env) (reqData : authReqData) :
    ∀ (fuel repeatCnt : Nat) (rj : TokenResponse) (w : World) (r : Res TokenResponse)
      (w1 : World), repeatCnt ≤ 10 →
      getTokenLoop E reqData fuel repeatCnt rj w = some (r, w1) →
      AuthOnly w w1 ∧ w1.authSent + repeatCnt ≤ w.authSent + 11 := by
  intro fuel
  induction fuel with
  | zero => intro repeatCnt rj w r w1 _ h; simp [getTokenLoop] at h
  | succ fuel ih =>
    intro repeatCnt rj w r w1 hc h
    rw [getTokenLoop] at h
    have hf := doRequest_auth_frame E E.unmarshalToken "POST" none none
      (some (ReqData.auth reqData)) (some rj) w
    generalize doRequest E E.unmarshalToken helpscoutAuthEndpoint "POST" none none
      (some (ReqData.auth reqData)) (some rj) w = p at h hf
    obtain ⟨res, w2⟩ := p
    obtain ⟨hf1, hf2⟩ := hf
    simp only at hf1 hf2
    split at h
    · rename_i heq
      simp only [Prod.mk.injEq] at heq
      obtain ⟨_, rfl⟩ := heq
      dsimp only at h
      split at h
      · simp only [Option.some.injEq, Prod.mk.injEq] at h
        obtain ⟨_, rfl⟩ := h
        refine ⟨authOnly_trans hf1 (authOnly_sleep _), ?_⟩
        show w2.authSent + repeatCnt ≤ w.authSent + 11
        omega
      · rename_i hlt
        have h3 := ih (repeatCnt + 1) rj (sleepSecond w2) r w1 (by omega) h
        refine ⟨authOnly_trans hf1 (authOnly_trans (authOnly_sleep _) h3.1), ?_⟩
        have h4 : (sleepSecond w2).authSent = w2.authSent := rfl
        omega
    · rename_i heq
      simp only [Prod.mk.injEq] at heq
      obtain ⟨_, rfl⟩ := heq
      simp only [Option.some.injEq, Prod.mk.injEq] at h
      obtain ⟨_, rfl⟩ := h
      exact ⟨hf1, by omega⟩
    · rename_i heq
      simp only [Prod.mk.injEq] at heq
      obtain ⟨_, rfl⟩ := heq
      simp only [Option.some.injEq, Prod.mk.injEq] at h
      obtain ⟨_, rfl⟩ := h
      exact ⟨hf1, by omega⟩
    · rename_i heq
      simp only [Prod.mk.injEq] at heq
      obtain ⟨_, rfl⟩ := heq
      simp only [Option.some.injEq, Prod.mk.injEq] at h
      obtain ⟨_, rfl⟩ := h
      exact ⟨hf1, by omega⟩

theorem getTokenLoop_returns (E : Env) (reqData : authReqData) :
    ∀ (fuel repeatCnt : Nat) (rj : TokenResponse) (w : World), repeatCnt ≤ 10 →
      11 ≤ repeatCnt + fuel →
      ∃ r w1, getTokenLoop E reqData fuel repeatCnt rj w = some (r, w1) := by
  intro fuel
  induction fuel with
  | zero => intro repeatCnt rj w h1 h2; omega
  | succ fuel ih =>
    intro repeatCnt rj w h1 h2
    rw [getTokenLoop]
    split
    · dsimp only
      split
      · exact ⟨_, _, rfl⟩
      · exact ih _ _ _ (by omega) (by omega)
    · exact ⟨_, _, rfl⟩
    · exact ⟨_, _, rfl⟩
    · exact ⟨_, _, rfl⟩

/-! ## Lemmas: `getToken` -/

theorem getToken_cached (E : Env) (forceUpdate : Bool) (w : World)
    (h : cacheValid E forceUpdate w) :
    getToken E forceUpdate w = some (Res.ok w.token, cachedWorld w) := by
  obtain ⟨hf, ht, hx⟩ := h
  subst hf
  simp [getToken, timeNow, ht, hx, cachedWorld]

theorem getToken_fetch (E : Env) (forceUpdate : Bool) (w : World)
    (h : ¬ cacheValid E forceUpdate w) :
    getToken E forceUpdate w =
      finishFetch E (getTokenLoop E
        { ClientId := w.appId, ClientSecret := w.appKey, GrantType := "client_credentials" }
        11 0 ⟨0, "", ""⟩ (fetchEntry forceUpdate w)) := by
  by_cases hg : (!forceUpdate && w.token != "") = true
  · have hx : ¬ (w.tokenExpireTime > E.clock w.clockReads + tenMinutes) := by
      intro hx
      apply h
      simp only [Bool.and_eq_true, Bool.not_eq_true', bne_iff_ne, ne_eq] at hg
      exact ⟨hg.1, hg.2, hx⟩
    simp only [getToken, hg, timeNow, fetchEntry, if_true, decide_eq_true_eq, hx, if_false]
    generalize getTokenLoop E _ 11 0 _ _ = x
    rcases x with _ | ⟨r, w1⟩
    · rfl
    · cases r <;> rfl
  · simp only [getToken, hg, fetchEntry, if_false, Bool.false_eq_true]
    generalize getTokenLoop E _ 11 0 _ _ = x
    rcases x with _ | ⟨r, w1⟩
    · rfl
    · cases r <;> rfl

theorem getToken_returns (E : Env) (forceUpdate : Bool) (w : World) :
    ∃ r w1, getToken E forceUpdate w = some (r, w1) := by
  by_cases h : cacheValid E forceUpdate w
  · exact ⟨_, _, getToken_cached E forceUpdate w h⟩
  · rw [getToken_fetch E forceUpdate w h]
    obtain ⟨r, w1, hl⟩ := getTokenLoop_returns E
      { ClientId := w.appId, ClientSecret := w.appKey, GrantType := "client_credentials" }
      11 0 ⟨0, "", ""⟩ (fetchEntry forceUpdate w) (by omega) (by omega)
    rw [hl]
    cases r with
    | err e => exact ⟨_, _, rfl⟩
    | ok rj =>
      simp only [finishFetch]
      split <;> exact ⟨_, _, rfl⟩

theorem fetchEntry_fields (forceUpdate : Bool) (w : World) :
    (fetchEntry forceUpdate w).appId = w.appId ∧ (fetchEntry forceUpdate w).appKey = w.appKey ∧
    (fetchEntry forceUpdate w).apiSent = w.apiSent ∧
    (fetchEntry forceUpdate w).authSent = w.authSent ∧
    (fetchEntry forceUpdate w).token = w.token ∧
    (fetchEntry forceUpdate w).tokenExpireTime = w.tokenExpireTime ∧
    (fetchEntry forceUpdate w).log = w.log ++ [Event.tokenCall forceUpdate] := by
  unfold fetchEntry
  split <;> exact ⟨rfl, rfl, rfl, rfl, rfl, rfl, rfl⟩

theorem getToken_frame (E : Env) (forceUpdate : Bool) (w : World) (r : Res String)
    (w1 : World) (h : getToken E forceUpdate w = some (r, w1)) :
    TokenStep forceUpdate w w1 := by
  by_cases hv : cacheValid E forceUpdate w
  · rw [getToken_cached E forceUpdate w hv] at h
    simp only [Option.some.injEq, Prod.mk.injEq] at h
    obtain ⟨_, rfl⟩ := h
    obtain ⟨hf, _, _⟩ := hv
    subst hf
    exact ⟨rfl, rfl, rfl, Nat.le_refl _, Nat.le_add_right _ _, [], rfl, rfl, rfl⟩
  · rw [getToken_fetch E forceUpdate w hv] at h
    obtain ⟨e1, e2, e3, e4, _, _, e7⟩ := fetchEntry_fields forceUpdate w
    have key : ∀ (x : Res TokenResponse) (w2 : World),
        getTokenLoop E
          { ClientId := w.appId, ClientSecret := w.appKey, GrantType := "client_credentials" }
          11 0 ⟨0, "", ""⟩ (fetchEntry forceUpdate w) = some (x, w2) →
        TokenStep forceUpdate w w2 := by
      intro x w2 hl
      obtain ⟨⟨a1, a2, _, _, a5, _, a7, evs, a8, a9, a10⟩, hb⟩ :=
        getTokenLoop_frame E _ 11 0 _ _ x w2 (by omega) hl
      refine ⟨a1.trans e1, a2.trans e2, a5.trans e3, ?_, ?_, evs, ?_, a9, a10⟩
      · omega
      · omega
      · rw [a8, e7, List.append_assoc]; rfl
    generalize hl : getTokenLoop E
      { ClientId := w.appId, ClientSecret := w.appKey, GrantType := "client_credentials" }
      11 0 ⟨0, "", ""⟩ (fetchEntry forceUpdate w) = x at h key
    rcases x with _ | ⟨x, w2⟩
    · simp [finishFetch] at h
    · have hs := key x w2 rfl
      cases x with
      | err e =>
        simp only [finishFetch, Option.some.injEq, Prod.mk.injEq] at h
        obtain ⟨_, rfl⟩ := h
        exact hs
      | ok rj =>
        simp only [finishFetch] at h
        split at h
        · simp only [Option.some.injEq, Prod.mk.injEq] at h
          obtain ⟨_, rfl⟩ := h
          exact hs
        · simp only [Option.some.injEq, Prod.mk.injEq] at h
          obtain ⟨_, rfl⟩ := h
          exact hs

/-- After `n` answers of status 429 the retry loop of `getToken` has slept `n` times and
goes on with the counter raised by `n`. -/
theorem getTokenLoop_retry (E : Env) (reqData : authReqData) (hE : E.accepts) :
    ∀ (n fuel repeatCnt : Nat) (rj : TokenResponse) (w : World),
      (∀ k, k < n → hasStatus (E.authAnswer (w.authSent + k)) 429) →
      repeatCnt + n ≤ 10 →
      getTokenLoop E reqData (fuel + n) repeatCnt rj w =
        getTokenLoop E reqData fuel (repeatCnt + n) rj
          (retriedAuth w (buildRequest helpscoutAuthEndpoint "POST" none none
            (some (ReqData.auth reqData))) n) := by
  intro n
  induction n with
  | zero =>
    intro fuel repeatCnt rj w _ _
    have hw : retriedAuth w (buildRequest helpscoutAuthEndpoint "POST" none none
        (some (ReqData.auth reqData))) 0 = w := by
      simp [retriedAuth, retries]
    rw [hw]; rfl
  | succ n ih =>
    intro fuel repeatCnt rj w h429 hc
    have h0 := h429 0 (Nat.succ_pos n)
    rw [Nat.add_zero] at h0
    have hstep : getTokenLoop E reqData (fuel + n + 1) repeatCnt rj w =
        getTokenLoop E reqData (fuel + n) (repeatCnt + 1) rj
          (sleepSecond (sentAuth w (buildRequest helpscoutAuthEndpoint "POST" none none
            (some (ReqData.auth reqData))))) := by
      rw [getTokenLoop, doRequest_auth E _ _ _ _ _ _ _ hE, answerResult_429 _ _ _ _ h0]
      have hn : ¬ (repeatCnt + 1 > 10) := by omega
      simp only [hn, if_false]
    rw [show fuel + (n + 1) = fuel + n + 1 from rfl, hstep, ih]
    · have hw : retriedAuth (sleepSecond (sentAuth w (buildRequest helpscoutAuthEndpoint
          "POST" none none (some (ReqData.auth reqData)))))
          (buildRequest helpscoutAuthEndpoint "POST" none none (some (ReqData.auth reqData))) n =
          retriedAuth w (buildRequest helpscoutAuthEndpoint "POST" none none
            (some (ReqData.auth reqData))) (n + 1) := by
        simp only [retriedAuth, sleepSecond, sentAuth, retries, List.append_assoc,
          List.singleton_append, Nat.add_assoc, Nat.add_comm 1 n]
        rfl
      rw [hw, show repeatCnt + 1 + n = repeatCnt + (n + 1) by omega]
    · intro k hk
      have := h429 (k + 1) (by omega)
      have hi : (sleepSecond (sentAuth w (buildRequest helpscoutAuthEndpoint "POST" none none
          (some (ReqData.auth reqData))))).authSent + k = w.authSent + (k + 1) := by
        show w.authSent + 1 + k = w.authSent + (k + 1)
        omega
      rw [hi]; exact this
    · omega

theorem getTokenLoop_429_last (E : Env) (reqData : authReqData) (hE : E.accepts)
    (fuel : Nat) (rj : TokenResponse) (w : World)
    (h : hasStatus (E.authAnswer w.authSent) 429) :
    getTokenLoop E reqData (fuel + 1) 10 rj w =
      some (Res.err (Err.new "Unable to submit auth-token update request (rate-limit)"),
        sleepSecond (sentAuth w (buildRequest helpscoutAuthEndpoint "POST" none none
          (some (ReqData.auth reqData))))) := by
  rw [getTokenLoop, doRequest_auth E _ _ _ _ _ _ _ hE, answerResult_429 _ _ _ _ h]
  rfl

theorem getTokenLoop_ok (E : Env) (reqData : authReqData) (hE : E.accepts)
    (fuel repeatCnt : Nat) (rj t : TokenResponse) (w : World)
    (h : answerResult E E.unmarshalToken (some rj) (E.authAnswer w.authSent) =
      Res.ok (some t)) :
    getTokenLoop E reqData (fuel + 1) repeatCnt rj w =
      some (Res.ok t, sentAuth w (buildRequest helpscoutAuthEndpoint "POST" none none
          (some (ReqData.auth reqData)))) := by
  rw [getTokenLoop, doRequest_auth E _ _ _ _ _ _ _ hE, h]
  rfl

/-! ## Lemmas: the inner loop of `doApiCall` -/

theorem doApiCallInner_retry {ρ : Type} (E : Env) (unmarshal : String → ρ → LibResult ρ)
    (url method : String) (authHeader : Header) (query : Option Values)
    (reqData : Option ReqData) (respData : Option ρ)
    (hE : E.accepts) (hurl : url ≠ helpscoutAuthEndpoint) :
    ∀ (n fuel repeatCnt : Nat) (w : World),
      (∀ k, k < n → hasStatus (E.apiAnswer (w.apiSent + k)) 429) →
      repeatCnt + n ≤ 10 →
      doApiCallInner E unmarshal url method authHeader query reqData respData
          (fuel + n) repeatCnt w =
        doApiCallInner E unmarshal url method authHeader query reqData respData
          fuel (repeatCnt + n)
          (retriedApi w (buildRequest url method (some authHeader) query reqData) n) := by
  intro n
  induction n with
  | zero =>
    intro fuel repeatCnt w _ _
    have hw : retriedApi w (buildRequest url method (some authHeader) query reqData) 0 = w := by
      simp [retriedApi, retries]
    rw [hw]; rfl
  | succ n ih =>
    intro fuel repeatCnt w h429 hc
    have h0 := h429 0 (Nat.succ_pos n)
    rw [Nat.add_zero] at h0
    have hstep : doApiCallInner E unmarshal url method authHeader query reqData respData
          (fuel + n + 1) repeatCnt w =
        doApiCallInner E unmarshal url method authHeader query reqData respData
          (fuel + n) (repeatCnt + 1)
          (sleepSecond (sentApi w (buildRequest url method (some authHeader) query reqData))) := by
      rw [doApiCallInner, doRequest_api E _ _ _ _ _ _ _ _ hE hurl,
        answerResult_429 _ _ _ _ h0]
      have hn : ¬ (repeatCnt + 1 > 10) := by omega
      simp only [hn, if_false]
    rw [show fuel + (n + 1) = fuel + n + 1 from rfl, hstep, ih]
    · have hw : retriedApi (sleepSecond (sentApi w
          (buildRequest url method (some authHeader) query reqData)))
          (buildRequest url method (some authHeader) query reqData) n =
          retriedApi w (buildRequest url method (some authHeader) query reqData) (n + 1) := by
        simp only [retriedApi, sleepSecond, sentApi, retries, List.append_assoc,
          List.singleton_append, Nat.add_assoc, Nat.add_comm 1 n]
        rfl
      rw [hw, show repeatCnt + 1 + n = repeatCnt + (n + 1) by omega]
    · intro k hk
      have := h429 (k + 1) (by omega)
      have hi : (sleepSecond (sentApi w
          (buildRequest url method (some authHeader) query reqData))).apiSent + k =
          w.apiSent + (k + 1) := by
        show w.apiSent + 1 + k = w.apiSent + (k + 1)
        omega
      rw [hi]; exact this
    · omega

theorem doApiCallInner_429_last {ρ : Type} (E : Env) (unmarshal : String → ρ → LibResult ρ)
    (url method : String) (authHeader : Header) (query : Option Values)
    (reqData : Option ReqData) (respData : Option ρ)
    (hE : E.accepts) (hurl : url ≠ helpscoutAuthEndpoint) (fuel : Nat) (w : World)
    (h : hasStatus (E.apiAnswer w.apiSent) 429) :
    doApiCallInner E unmarshal url method authHeader query reqData respData (fuel + 1) 10 w =
      some (InnerExit.ret (Res.err (Err.new "Unable to submit a request (rate-limit)")),
        sleepSecond (sentApi w (buildRequest url method (some authHeader) query reqData))) := by
  rw [doApiCallInner, doRequest_api E _ _ _ _ _ _ _ _ hE hurl, answerResult_429 _ _ _ _ h]
  rfl

theorem doApiCallInner_401 {ρ : Type} (E : Env) (unmarshal : String → ρ → LibResult ρ)
    (url method : String) (authHeader : Header) (query : Option Values)
    (reqData : Option ReqData) (respData : Option ρ)
    (hE : E.accepts) (hurl : url ≠ helpscoutAuthEndpoint) (fuel repeatCnt : Nat) (w : World)
    (h : answerResult E unmarshal respData (E.apiAnswer w.apiSent) = Res.err Err.unauthorized) :
    doApiCallInner E unmarshal url method authHeader query reqData respData
        (fuel + 1) repeatCnt w =
      some (InnerExit.brk,
        sentApi w (buildRequest url method (some authHeader) query reqData)) := by
  rw [doApiCallInner, doRequest_api E _ _ _ _ _ _ _ _ hE hurl, h]

theorem doApiCallInner_other {ρ : Type} (E : Env) (unmarshal : String → ρ → LibResult ρ)
    (url method : String) (authHeader : Header) (query : Option Values)
    (reqData : Option ReqData) (respData : Option ρ)
    (hE : E.accepts) (hurl : url ≠ helpscoutAuthEndpoint) (fuel repeatCnt : Nat) (w : World)
    (r : Res (Option ρ))
    (h : answerResult E unmarshal respData (E.apiAnswer w.apiSent) = r)
    (h1 : r ≠ Res.err Err.rateLimit) (h2 : r ≠ Res.err Err.unauthorized) :
    doApiCallInner E unmarshal url method authHeader query reqData respData
        (fuel + 1) repeatCnt w =
      some (InnerExit.ret r,
        sentApi w (buildRequest url method (some authHeader) query reqData)) := by
  rw [doApiCallInner, doRequest_api E _ _ _ _ _ _ _ _ hE hurl, h]
  split
  · rename_i heq
    simp only [Prod.mk.injEq] at heq
    exact absurd heq.1 h1
  · rename_i heq
    simp only [Prod.mk.injEq] at heq
    exact absurd heq.1 h2
  · rename_i heq
    simp only [Prod.mk.injEq] at heq
    obtain ⟨rfl, rfl⟩ := heq
    rfl

/-! ## Lemmas: the outer loop of `doApiCall` -/

theorem doApiCallLoop_ret {ρ : Type} (E : Env) (unmarshal : String → ρ → LibResult ρ)
    (method resource : String) (query : Option Values)
    (reqData : Option ReqData) (respData : Option ρ)
    (fuel repeatAllCnt : Nat) (force : Bool) (w w1 w2 : World) (token : String)
    (r : Res (Option ρ))
    (hTok : getToken E force w = some (Res.ok token, w1))
    (hIn : doApiCallInner E unmarshal (helpscoutApiEndpoint ++ resource) method
      [("Authorization", "Bearer " ++ token)] query reqData respData 11 0 w1 =
        some (InnerExit.ret r, w2)) :
    doApiCallLoop E unmarshal method resource query reqData respData
      (fuel + 1) repeatAllCnt force w = some (r, w2) := by
  rw [doApiCallLoop, hTok]
  simp only [hIn]

theorem doApiCallLoop_brk {ρ : Type} (E : Env) (unmarshal : String → ρ → LibResult ρ)
    (method resource : String) (query : Option Values)
    (reqData : Option ReqData) (respData : Option ρ)
    (fuel repeatAllCnt : Nat) (force : Bool) (w w1 w2 : World) (token : String)
    (hTok : getToken E force w = some (Res.ok token, w1))
    (hIn : doApiCallInner E unmarshal (helpscoutApiEndpoint ++ resource) method
      [("Authorization", "Bearer " ++ token)] query reqData respData 11 0 w1 =
        some (InnerExit.brk, w2)) :
    doApiCallLoop E unmarshal method resource query reqData respData
      (fuel + 1) repeatAllCnt force w =
      if repeatAllCnt + 1 > 3 then
        some (Res.err (Err.new "Unable to submit a request (authorization failed)"), w2)
      else
        doApiCallLoop E unmarshal method resource query reqData respData
          fuel (repeatAllCnt + 1) true w2 := by
  rw [doApiCallLoop, hTok]
  simp only [hIn]

theorem doApiCallLoop_tokenError {ρ : Type} (E : Env) (unmarshal : String → ρ → LibResult ρ)
    (method resource : String) (query : Option Values)
    (reqData : Option ReqData) (respData : Option ρ)
    (fuel repeatAllCnt : Nat) (force : Bool) (w w1 : World) (e : Err)
    (hTok : getToken E force w = some (Res.err e, w1)) :
    doApiCallLoop E unmarshal method resource query reqData respData
      (fuel + 1) repeatAllCnt force w =
      some (Res.err (Err.wrap e "Unable to update Auth Token"), w1) := by
  rw [doApiCallLoop, hTok]

/-- The inner loop of `doApiCall` after `n ≤ 10` answers of status 429 and then an answer
that is neither 429 nor 401: the result of that answer, `n` sleeps, `n + 1` requests. -/
theorem doApiCallInner_backoff {ρ : Type} (E : Env) (unmarshal : String → ρ → LibResult ρ)
    (url method : String) (authHeader : Header) (query : Option Values)
    (reqData : Option ReqData) (respData : Option ρ)
    (hE : E.accepts) (hurl : url ≠ helpscoutAuthEndpoint) (n : Nat) (w : World)
    (r : Res (Option ρ)) (hn : n ≤ 10)
    (h429 : ∀ k, k < n → hasStatus (E.apiAnswer (w.apiSent + k)) 429)
    (h : answerResult E unmarshal respData (E.apiAnswer (w.apiSent + n)) = r)
    (h1 : r ≠ Res.err Err.rateLimit) (h2 : r ≠ Res.err Err.unauthorized) :
    doApiCallInner E unmarshal url method authHeader query reqData respData 11 0 w =
      some (InnerExit.ret r,
        sentApi (retriedApi w (buildRequest url method (some authHeader) query reqData) n)
          (buildRequest url method (some authHeader) query reqData)) := by
  have h0 := doApiCallInner_retry E unmarshal url method authHeader query reqData respData
    hE hurl n (11 - n) 0 w h429 (by omega)
  rw [show 11 - n + n = 11 by omega] at h0
  rw [h0]
  obtain ⟨f, hf⟩ : ∃ f, 11 - n = f + 1 := ⟨10 - n, by omega⟩
  rw [hf]
  exact doApiCallInner_other E unmarshal url method authHeader query reqData respData
    hE hurl f (0 + n) _ r h h1 h2

/-- The inner loop of `doApiCall` after eleven answers of status 429. -/
theorem doApiCallInner_exhausted {ρ : Type} (E : Env) (unmarshal : String → ρ → LibResult ρ)
    (url method : String) (authHeader : Header) (query : Option Values)
    (reqData : Option ReqData) (respData : Option ρ)
    (hE : E.accepts) (hurl : url ≠ helpscoutAuthEndpoint) (w : World)
    (h429 : ∀ k, k < 11 → hasStatus (E.apiAnswer (w.apiSent + k)) 429) :
    doApiCallInner E unmarshal url method authHeader query reqData respData 11 0 w =
      some (InnerExit.ret (Res.err (Err.new "Unable to submit a request (rate-limit)")),
        retriedApi w (buildRequest url method (some authHeader) query reqData) 11) := by
  have h0 := doApiCallInner_retry E unmarshal url method authHeader query reqData respData
    hE hurl 10 1 0 w (fun k hk => h429 k (by omega)) (by omega)
  rw [show 1 + 10 = 11 from rfl] at h0
  rw [h0, doApiCallInner_429_last E unmarshal url method authHeader query reqData respData
    hE hurl 0 _ (h429 10 (by omega))]
  simp only [retriedApi, sleepSecond, sentApi, retries_succ_append _ 10, List.append_assoc]
  rfl

/-- The retry loop of `getToken` after `n ≤ 10` answers of status 429 and then a response
that decodes to `t`. -/
theorem getTokenLoop_backoff (E : Env) (reqData : authReqData) (hE : E.accepts)
    (n : Nat) (rj t : TokenResponse) (w : World) (hn : n ≤ 10)
    (h429 : ∀ k, k < n → hasStatus (E.authAnswer (w.authSent + k)) 429)
    (h : answerResult E E.unmarshalToken (some rj) (E.authAnswer (w.authSent + n)) =
      Res.ok (some t)) :
    getTokenLoop E reqData 11 0 rj w =
      some (Res.ok t,
        sentAuth (retriedAuth w (buildRequest helpscoutAuthEndpoint "POST" none none
          (some (ReqData.auth reqData))) n)
          (buildRequest helpscoutAuthEndpoint "POST" none none
            (some (ReqData.auth reqData)))) := by
  have h0 := getTokenLoop_retry E reqData hE n (11 - n) 0 rj w h429 (by omega)
  rw [show 11 - n + n = 11 by omega] at h0
  rw [h0]
  obtain ⟨f, hf⟩ : ∃ f, 11 - n = f + 1 := ⟨10 - n, by omega⟩
  rw [hf]
  exact getTokenLoop_ok E reqData hE f (0 + n) rj t _ h

/-- The retry loop of `getToken` after eleven answers of status 429. -/
theorem getTokenLoop_exhausted (E : Env) (reqData : authReqData) (hE : E.accepts)
    (rj : TokenResponse) (w : World)
    (h429 : ∀ k, k < 11 → hasStatus (E.authAnswer (w.authSent + k)) 429) :
    getTokenLoop E reqData 11 0 rj w =
      some (Res.err (Err.new "Unable to submit auth-token update request (rate-limit)"),
        retriedAuth w (buildRequest helpscoutAuthEndpoint "POST" none none
          (some (ReqData.auth reqData))) 11) := by
  have h0 := getTokenLoop_retry E reqData hE 10 1 0 rj w (fun k hk => h429 k (by omega))
    (by omega)
  rw [show 1 + 10 = 11 from rfl] at h0
  rw [h0, getTokenLoop_429_last E reqData hE 0 rj _ (h429 10 (by omega))]
  simp only [retriedAuth, sleepSecond, sentAuth, retries_succ_append _ 10, List.append_assoc]
  rfl

/-! ## Lemmas: `getToken` under rate limiting -/

theorem getToken_backoff (E : Env) (hE : E.accepts) (forceUpdate : Bool) (w : World)
    (n : Nat) (t : TokenResponse) (hn : n ≤ 10)
    (hv : ¬ cacheValid E forceUpdate w)
    (h429 : ∀ k, k < n → hasStatus (E.authAnswer (w.authSent + k)) 429)
    (h : answerResult E E.unmarshalToken (some ⟨0, "", ""⟩) (E.authAnswer (w.authSent + n)) =
      Res.ok (some t))
    (ht : validToken t) :
    getToken E forceUpdate w =
      some (Res.ok t.Token,
        storedWorld E t (sentAuth (retriedAuth (fetchEntry forceUpdate w) (tokenRequest w) n)
          (tokenRequest w))) := by
  obtain ⟨_, _, _, e4, _, _, _⟩ := fetchEntry_fields forceUpdate w
  rw [getToken_fetch E forceUpdate w hv,
    getTokenLoop_backoff E _ hE n _ t (fetchEntry forceUpdate w) hn
      (by rw [e4]; exact h429) (by rw [e4]; exact h)]
  have hnot : ¬ (t.Token = "" ∨ t.ExpiresIn ≤ 0) := by
    intro hc
    rcases hc with hc | hc
    · exact ht.1 hc
    · have := ht.2; omega
  simp only [finishFetch, hnot, if_false]
  rfl

theorem getToken_exhausted (E : Env) (hE : E.accepts) (forceUpdate : Bool) (w : World)
    (hv : ¬ cacheValid E forceUpdate w)
    (h429 : ∀ k, k < 11 → hasStatus (E.authAnswer (w.authSent + k)) 429) :
    getToken E forceUpdate w =
      some (Res.err (Err.new "Unable to submit auth-token update request (rate-limit)"),
        retriedAuth (fetchEntry forceUpdate w) (tokenRequest w) 11) := by
  obtain ⟨_, _, _, e4, _, _, _⟩ := fetchEntry_fields forceUpdate w
  rw [getToken_fetch E forceUpdate w hv,
    getTokenLoop_exhausted E _ hE _ (fetchEntry forceUpdate w) (by rw [e4]; exact h429)]
  rfl

theorem tokenRequest_url (w : World) : (tokenRequest w).url = helpscoutAuthEndpoint := rfl

theorem apiRequest_url (method resource : String) (query : Option Values)
    (reqData : Option ReqData) (token : String) :
    (apiRequest method resource query reqData token).url = helpscoutApiEndpoint ++ resource :=
  rfl

theorem apiRequest_header (method resource : String) (query : Option Values)
    (reqData : Option ReqData) (token : String) :
    (apiRequest method resource query reqData token).header =
      [("Accept", "application/json"), ("Content-Type", "application/json"),
        ("Authorization", "Bearer " ++ token)] := by
  simp [apiRequest, buildRequest, headerSet]

theorem sleepCount_request (req : Request) : sleepCount [Event.request req] = 0 := by
  simp [sleepCount]

theorem sleepCount_tokenCall (f : Bool) : sleepCount [Event.tokenCall f] = 0 := by
  simp [sleepCount]

theorem exampleEnv_accepts (auth api : Nat → Answer) : (exampleEnv auth api).accepts :=
  ⟨fun _ => rfl, fun _ _ => rfl⟩

theorem firstThen_status (n : Nat) (code : Int) (b : Answer) (base : Nat) (k : Nat)
    (hb : base = 0) (hk : k < n) :
    hasStatus (firstThen n (statusAnswer code) b (base + k)) code := by
  subst hb
  refine ⟨⟨code, "", LibResult.ok ""⟩, ?_, rfl⟩
  simp [firstThen, statusAnswer, hk]

/-! ## C3: rate-limit backoff -/

/-- C3. Rate-limit backoff of `getToken` (when it has to fetch) and of the inner loop of
`doApiCall`.  For every `N < 10`: if the transport answers 429 to the next `N` requests and
then with a success, the operation succeeds, and what it did is exactly `N` times
(request, one-second sleep) followed by one more request, so `N` sleeps and `N + 1`
requests; `doApiCall` sends all of them with the token it obtained once and makes no
further token request.  If the transport answers 429 eleven times in a row the operation
returns its rate-limit error.  (For `getToken` a success is a response that decodes to a
non-empty token with a positive `expires_in`.) -/
theorem rate_limit_backoff (E : Env) (hE : E.accepts) :
    (∀ (N : Nat) (forceUpdate : Bool) (w : World) (t : TokenResponse),
      N < 10 → ¬ cacheValid E forceUpdate w →
      (∀ k, k < N → hasStatus (E.authAnswer (w.authSent + k)) 429) →
      answerResult E E.unmarshalToken (some ⟨0, "", ""⟩) (E.authAnswer (w.authSent + N)) =
        Res.ok (some t) →
      validToken t →
      ∃ w1, getToken E forceUpdate w = some (Res.ok t.Token, w1) ∧
        w1.log = w.log ++ Event.tokenCall forceUpdate ::
          (retries (tokenRequest w) N ++ [Event.request (tokenRequest w)]) ∧
        sleepCount w1.log = sleepCount w.log + N ∧
        w1.authSent = w.authSent + (N + 1) ∧ w1.apiSent = w.apiSent) ∧
    (∀ (forceUpdate : Bool) (w : World), ¬ cacheValid E forceUpdate w →
      (∀ k, k < 11 → hasStatus (E.authAnswer (w.authSent + k)) 429) →
      ∃ w1, getToken E forceUpdate w =
        some (Res.err (Err.new "Unable to submit auth-token update request (rate-limit)"),
          w1)) ∧
    (∀ {ρ : Type} (unmarshal : String → ρ → LibResult ρ) (method resource : String)
      (query : Option Values) (reqData : Option ReqData) (respData v : Option ρ)
      (N : Nat) (w w1 : World) (token : String),
      resource ≠ "/oauth2/token" → N < 10 →
      getToken E false w = some (Res.ok token, w1) →
      (∀ k, k < N → hasStatus (E.apiAnswer (w1.apiSent + k)) 429) →
      answerResult E unmarshal respData (E.apiAnswer (w1.apiSent + N)) = Res.ok v →
      ∃ w2, doApiCall E unmarshal method resource query reqData respData w =
          some (Res.ok v, w2) ∧
        w2.log = w1.log ++ (retries (apiRequest method resource query reqData token) N ++
          [Event.request (apiRequest method resource query reqData token)]) ∧
        sleepCount w2.log = sleepCount w1.log + N ∧
        w2.apiSent = w1.apiSent + (N + 1) ∧ w2.authSent = w1.authSent) ∧
    (∀ {ρ : Type} (unmarshal : String → ρ → LibResult ρ) (method resource : String)
      (query : Option Values) (reqData : Option ReqData) (respData : Option ρ)
      (w w1 : World) (token : String),
      resource ≠ "/oauth2/token" →
      getToken E false w = some (Res.ok token, w1) →
      (∀ k, k < 11 → hasStatus (E.apiAnswer (w1.apiSent + k)) 429) →
      ∃ w2, doApiCall E unmarshal method resource query reqData respData w =
        some (Res.err (Err.new "Unable to submit a request (rate-limit)"), w2)) := by
  refine ⟨?_, ?_, ?_, ?_⟩
  · intro N forceUpdate w t hN hv h429 hok ht
    obtain ⟨_, _, e3, e4, _, _, e7⟩ := fetchEntry_fields forceUpdate w
    refine ⟨_, getToken_backoff E hE forceUpdate w N t (by omega) hv h429 hok ht, ?_, ?_, ?_, ?_⟩
    · show (fetchEntry forceUpdate w).log ++ retries (tokenRequest w) N ++
        [Event.request (tokenRequest w)] = _
      rw [e7]
      simp only [List.append_assoc, List.singleton_append, List.cons_append,
        List.nil_append]
    · show sleepCount ((fetchEntry forceUpdate w).log ++ retries (tokenRequest w) N ++
        [Event.request (tokenRequest w)]) = _
      rw [e7]
      simp only [sleepCount_append, sleepCount_retries, sleepCount_request,
        sleepCount_tokenCall]
      omega
    · show (fetchEntry forceUpdate w).authSent + N + 1 = _
      rw [e4]; omega
    · exact e3
  · intro forceUpdate w hv h429
    exact ⟨_, getToken_exhausted E hE forceUpdate w hv h429⟩
  · intro ρ unmarshal method resource query reqData respData v N w w1 token hres hN hTok
      h429 hok
    have hurl := apiUrl_ne_authEndpoint resource hres
    have hin := doApiCallInner_backoff E unmarshal (helpscoutApiEndpoint ++ resource) method
      [("Authorization", "Bearer " ++ token)] query reqData respData hE hurl N w1 (Res.ok v)
      (by omega) h429 hok (by simp) (by simp)
    refine ⟨_, doApiCallLoop_ret E unmarshal method resource query reqData respData 3 0 false
      w w1 _ token (Res.ok v) hTok hin, ?_, ?_, ?_, ?_⟩
    · show w1.log ++ retries (apiRequest method resource query reqData token) N ++
        [Event.request (apiRequest method resource query reqData token)] = _
      simp only [List.append_assoc]
    · show sleepCount (w1.log ++ retries (apiRequest method resource query reqData token) N ++
        [Event.request (apiRequest method resource query reqData token)]) = _
      simp only [sleepCount_append, sleepCount_retries, sleepCount_request]
      omega
    · show w1.apiSent + N + 1 = _
      omega
    · rfl
  · intro ρ unmarshal method resource query reqData respData w w1 token hres hTok h429
    have hurl := apiUrl_ne_authEndpoint resource hres
    have hin := doApiCallInner_exhausted E unmarshal (helpscoutApiEndpoint ++ resource) method
      [("Authorization", "Bearer " ++ token)] query reqData respData hE hurl w1 h429
    exact ⟨_, doApiCallLoop_ret E unmarshal method resource query reqData respData 3 0 false
      w w1 _ token _ hTok hin⟩

/-- C3, witness: two answers 429 and then a success, and eleven answers 429, for a forced
`getToken` on a new client and for `doApiCall` on a client with a valid cached token. -/
theorem rate_limit_backoff_witness :
    (∃ w1, getToken twiceLimitedEnv true freshWorld = some (Res.ok "fresh", w1) ∧
      w1.log = freshWorld.log ++ Event.tokenCall true ::
        (retries (tokenRequest freshWorld) 2 ++ [Event.request (tokenRequest freshWorld)]) ∧
      sleepCount w1.log = sleepCount freshWorld.log + 2 ∧
      w1.authSent = freshWorld.authSent + (2 + 1) ∧ w1.apiSent = freshWorld.apiSent) ∧
    (∃ w1, getToken elevenLimitedEnv true freshWorld =
      some (Res.err (Err.new "Unable to submit auth-token update request (rate-limit)"),
        w1)) ∧
    (∃ w2, doApiCall twiceLimitedEnv unmarshalUnit "GET" "/users" none none none warmWorld =
        some (Res.ok none, w2) ∧
      w2.log = (cachedWorld warmWorld).log ++
        (retries (apiRequest "GET" "/users" none none "cached") 2 ++
          [Event.request (apiRequest "GET" "/users" none none "cached")]) ∧
      sleepCount w2.log = sleepCount (cachedWorld warmWorld).log + 2 ∧
      w2.apiSent = (cachedWorld warmWorld).apiSent + (2 + 1) ∧
      w2.authSent = (cachedWorld warmWorld).authSent) ∧
    (∃ w2, doApiCall elevenLimitedEnv unmarshalUnit "GET" "/users" none none none warmWorld =
      some (Res.err (Err.new "Unable to submit a request (rate-limit)"), w2)) :=
  ⟨(rate_limit_backoff twiceLimitedEnv (exampleEnv_accepts _ _)).1 2 true freshWorld
      ⟨3600, "fresh", "bearer"⟩ (by decide) (fun h => Bool.noConfusion h.1)
      (fun k hk => firstThen_status 2 429 _ _ k rfl hk) rfl ⟨by decide, by decide⟩,
    (rate_limit_backoff elevenLimitedEnv (exampleEnv_accepts _ _)).2.1 true freshWorld
      (fun h => Bool.noConfusion h.1) (fun k hk => firstThen_status 11 429 _ _ k rfl hk),
    (rate_limit_backoff twiceLimitedEnv (exampleEnv_accepts _ _)).2.2.1 unmarshalUnit
      "GET" "/users" none none none none 2 warmWorld (cachedWorld warmWorld) "cached"
      (by decide) (by decide) (by decide)
      (fun k hk => firstThen_status 2 429 _ _ k rfl hk) rfl,
    (rate_limit_backoff elevenLimitedEnv (exampleEnv_accepts _ _)).2.2.2 unmarshalUnit
      "GET" "/users" none none none warmWorld (cachedWorld warmWorld) "cached"
      (by decide) (by decide)
      (fun k hk => firstThen_status 11 429 _ _ k rfl hk)⟩

/-! ## Lemmas: bounds on the loops of `doApiCall` -/

theorem doRequest_api_world {ρ : Type} (E : Env) (unmarshal : String → ρ → LibResult ρ)
    (url method : String) (headers : Option Header) (query : Option Values)
    (reqData : Option ReqData) (respData : Option ρ) (w : World)
    (hurl : url ≠ helpscoutAuthEndpoint) :
    (doRequest E unmarshal url method headers query reqData respData w).2 = w ∨
    (doRequest E unmarshal url method headers query reqData respData w).2 =
      sentApi w (buildRequest url method headers query reqData) := by
  unfold doRequest
  split
  · exact Or.inl rfl
  · split
    · exact Or.inl rfl
    · simp only [transportDo, buildRequest_url, if_neg hurl]
      cases E.apiAnswer w.apiSent <;> exact Or.inr rfl

theorem innerStep_refl (req : Request) (w : World) : InnerStep req w w :=
  ⟨rfl, rfl, rfl, rfl, rfl, rfl, Nat.le_refl _, [], by simp, by simp⟩

theorem innerStep_trans {req : Request} {a b c : World} (h1 : InnerStep req a b)
    (h2 : InnerStep req b c) : InnerStep req a c := by
  obtain ⟨i1, k1, t1, x1, p1, c1, s1, e1, l1, n1⟩ := h1
  obtain ⟨i2, k2, t2, x2, p2, c2, s2, e2, l2, n2⟩ := h2
  refine ⟨i2.trans i1, k2.trans k1, t2.trans t1, x2.trans x1, p2.trans p1, c2.trans c1,
    Nat.le_trans s1 s2, e1 ++ e2, ?_, ?_⟩
  · rw [l2, l1, List.append_assoc]
  · intro e he
    rcases List.mem_append.mp he with h | h
    · exact n1 e h
    · exact n2 e h

theorem innerStep_sleep (req : Request) (w : World) : InnerStep req w (sleepSecond w) :=
  ⟨rfl, rfl, rfl, rfl, rfl, rfl, Nat.le_refl _, [Event.sleep], rfl, by simp⟩

theorem innerStep_sent (req : Request) (w : World) : InnerStep req w (sentApi w req) :=
  ⟨rfl, rfl, rfl, rfl, rfl, rfl, Nat.le_succ _, [Event.request req], rfl, by simp⟩

theorem innerStep_calls {req : Request} {w w1 : World} (h : InnerStep req w w1) :
    tokenCalls w1.log = tokenCalls w.log := by
  obtain ⟨_, _, _, _, _, _, _, evs, hl, hq⟩ := h
  have : tokenCalls evs = [] := by
    unfold tokenCalls
    rw [List.filterMap_eq_nil_iff]
    intro e he
    rcases hq e he with h | h <;> rw [h]
  rw [hl, tokenCalls_append, this, List.append_nil]

theorem doRequest_api_frame {ρ : Type} (E : Env) (unmarshal : String → ρ → LibResult ρ)
    (url method : String) (headers : Option Header) (query : Option Values)
    (reqData : Option ReqData) (respData : Option ρ) (w : World)
    (hurl : url ≠ helpscoutAuthEndpoint) :
    InnerStep (buildRequest url method headers query reqData) w
      (doRequest E unmarshal url method headers query reqData respData w).2 ∧
    (doRequest E unmarshal url method headers query reqData respData w).2.apiSent
      ≤ w.apiSent + 1 := by
  rcases doRequest_api_world E unmarshal url method headers query reqData respData w hurl
    with h | h
  · rw [h]; exact ⟨innerStep_refl _ w, Nat.le_succ _⟩
  · rw [h]; exact ⟨innerStep_sent _ w, Nat.le_refl _⟩

theorem doApiCallInner_frame {ρ : Type} (E : Env) (unmarshal : String → ρ → LibResult ρ)
    (url method : String) (authHeader : Header) (query : Option Values)
    (reqData : Option ReqData) (respData : Option ρ)
    (hurl : url ≠ helpscoutAuthEndpoint) :
    ∀ (fuel repeatCnt : Nat) (w : World) (x : InnerExit ρ) (w1 : World), repeatCnt ≤ 10 →
      doApiCallInner E unmarshal url method authHeader query reqData respData
        fuel repeatCnt w = some (x, w1) →
      InnerStep (buildRequest url method (some authHeader) query reqData) w w1 ∧
        w1.apiSent + repeatCnt ≤ w.apiSent + 11 := by
  intro fuel
  induction fuel with
  | zero => intro repeatCnt w x w1 _ h; simp [doApiCallInner] at h
  | succ fuel ih =>
    intro repeatCnt w x w1 hc h
    rw [doApiCallInner] at h
    have hf := doRequest_api_frame E unmarshal url method (some authHeader) query reqData
      respData w hurl
    generalize doRequest E unmarshal url method (some authHeader) query reqData respData w
      = p at h hf
    obtain ⟨res, w2⟩ := p
    obtain ⟨hf1, hf2⟩ := hf
    simp only at hf1 hf2
    split at h
    · rename_i heq
      simp only [Prod.mk.injEq] at heq
      obtain ⟨_, rfl⟩ := heq
      dsimp only at h
      split at h
      · simp only [Option.some.injEq, Prod.mk.injEq] at h
        obtain ⟨_, rfl⟩ := h
        refine ⟨innerStep_trans hf1 (innerStep_sleep _ _), ?_⟩
        show w2.apiSent + repeatCnt ≤ w.apiSent + 11
        omega
      · have h3 := ih (repeatCnt + 1) (sleepSecond w2) x w1 (by omega) h
        refine ⟨innerStep_trans hf1 (innerStep_trans (innerStep_sleep _ _) h3.1), ?_⟩
        have h4 : (sleepSecond w2).apiSent = w2.apiSent := rfl
        omega
    · rename_i heq
      simp only [Prod.mk.injEq] at heq
      obtain ⟨_, rfl⟩ := heq
      simp only [Option.some.injEq, Prod.mk.injEq] at h
      obtain ⟨_, rfl⟩ := h
      exact ⟨hf1, by omega⟩
    · rename_i heq
      simp only [Prod.mk.injEq] at heq
      obtain ⟨_, rfl⟩ := heq
      simp only [Option.some.injEq, Prod.mk.injEq] at h
      obtain ⟨_, rfl⟩ := h
      exact ⟨hf1, by omega⟩

theorem doApiCallInner_returns {ρ : Type} (E : Env) (unmarshal : String → ρ → LibResult ρ)
    (url method : String) (authHeader : Header) (query : Option Values)
    (reqData : Option ReqData) (respData : Option ρ) :
    ∀ (fuel repeatCnt : Nat) (w : World), repeatCnt ≤ 10 → 11 ≤ repeatCnt + fuel →
      ∃ x w1, doApiCallInner E unmarshal url method authHeader query reqData respData
        fuel repeatCnt w = some (x, w1) := by
  intro fuel
  induction fuel with
  | zero => intro repeatCnt w h1 h2; omega
  | succ fuel ih =>
    intro repeatCnt w h1 h2
    rw [doApiCallInner]
    split
    · dsimp only
      split
      · exact ⟨_, _, rfl⟩
      · exact ih _ _ (by omega) (by omega)
    · exact ⟨_, _, rfl⟩
    · exact ⟨_, _, rfl⟩

theorem tokenStep_calls {f : Bool} {w w1 : World} (h : TokenStep f w w1) :
    tokenCalls w1.log = tokenCalls w.log ++ [f] := by
  obtain ⟨_, _, _, _, _, evs, hl, hq, _⟩ := h
  rw [hl, tokenCalls_append]
  have : tokenCalls (Event.tokenCall f :: evs) = f :: tokenCalls evs := by
    simp [tokenCalls]
  rw [this, hq]

theorem tokenStep_requests {f : Bool} {w w1 : World} (h : TokenStep f w w1) :
    apiRequests w1.log = apiRequests w.log := by
  obtain ⟨_, _, _, _, _, evs, hl, _, hq⟩ := h
  rw [hl, apiRequests_append]
  have : apiRequests (Event.tokenCall f :: evs) = apiRequests evs := by
    simp [apiRequests]
  rw [this, hq, List.append_nil]

theorem doApiCallLoop_bounds {ρ : Type} (E : Env) (unmarshal : String → ρ → LibResult ρ)
    (method resource : String) (query : Option Values)
    (reqData : Option ReqData) (respData : Option ρ) (hres : resource ≠ "/oauth2/token") :
    ∀ (fuel repeatAllCnt : Nat) (force : Bool) (w : World) (r : Res (Option ρ)) (w1 : World),
      repeatAllCnt ≤ 3 →
      doApiCallLoop E unmarshal method resource query reqData respData
        fuel repeatAllCnt force w = some (r, w1) →
      (tokenCalls w1.log).length + repeatAllCnt ≤ (tokenCalls w.log).length + 4 ∧
        w1.apiSent + 11 * repeatAllCnt ≤ w.apiSent + 44 := by
  have hurl := apiUrl_ne_authEndpoint resource hres
  intro fuel
  induction fuel with
  | zero => intro c f w r w1 _ h; simp [doApiCallLoop] at h
  | succ fuel ih =>
    intro c f w r w1 hc h
    rw [doApiCallLoop] at h
    cases hg : getToken E f w with
    | none => rw [hg] at h; simp at h
    | some p =>
      obtain ⟨res, wt⟩ := p
      have ht := getToken_frame E f w res wt hg
      have htc := tokenStep_calls ht
      obtain ⟨_, _, ha, _, _, _⟩ := ht
      rw [hg] at h
      cases res with
      | err e =>
        simp only [Option.some.injEq, Prod.mk.injEq] at h
        obtain ⟨_, rfl⟩ := h
        rw [htc, List.length_append, List.length_singleton]
        omega
      | ok token =>
        dsimp only at h
        cases hin : doApiCallInner E unmarshal (helpscoutApiEndpoint ++ resource) method
            [("Authorization", "Bearer " ++ token)] query reqData respData 11 0 wt with
        | none => rw [hin] at h; simp at h
        | some q =>
          obtain ⟨x, w2⟩ := q
          obtain ⟨hi, hb⟩ := doApiCallInner_frame E unmarshal _ method _ query reqData
            respData hurl 11 0 wt x w2 (by omega) hin
          have hic := innerStep_calls hi
          rw [hin] at h
          cases x with
          | ret r2 =>
            simp only [Option.some.injEq, Prod.mk.injEq] at h
            obtain ⟨_, rfl⟩ := h
            rw [hic, htc, List.length_append, List.length_singleton]
            omega
          | brk =>
            dsimp only at h
            split at h
            · simp only [Option.some.injEq, Prod.mk.injEq] at h
              obtain ⟨_, rfl⟩ := h
              rw [hic, htc, List.length_append, List.length_singleton]
              omega
            · have h3 := ih (c + 1) true w2 r w1 (by omega) h
              rw [hic, htc, List.length_append, List.length_singleton] at h3
              omega

theorem doApiCallLoop_returns {ρ : Type} (E : Env) (unmarshal : String → ρ → LibResult ρ)
    (method resource : String) (query : Option Values)
    (reqData : Option ReqData) (respData : Option ρ) :
    ∀ (fuel repeatAllCnt : Nat) (force : Bool) (w : World), repeatAllCnt ≤ 3 →
      4 ≤ repeatAllCnt + fuel →
      ∃ r w1, doApiCallLoop E unmarshal method resource query reqData respData
        fuel repeatAllCnt force w = some (r, w1) := by
  intro fuel
  induction fuel with
  | zero => intro c f w h1 h2; omega
  | succ fuel ih =>
    intro c f w h1 h2
    rw [doApiCallLoop]
    obtain ⟨res, wt, hg⟩ := getToken_returns E f w
    rw [hg]
    cases res with
    | err e => exact ⟨_, _, rfl⟩
    | ok token =>
      dsimp only
      obtain ⟨x, w2, hin⟩ := doApiCallInner_returns E unmarshal
        (helpscoutApiEndpoint ++ resource) method [("Authorization", "Bearer " ++ token)]
        query reqData respData 11 0 wt (by omega) (by omega)
      rw [hin]
      cases x with
      | ret r2 => exact ⟨_, _, rfl⟩
      | brk =>
        dsimp only
        split
        · exact ⟨_, _, rfl⟩
        · exact ih _ _ _ (by omega) (by omega)

/-- The method `doApiCall` always returns: the fuel given to its loops is enough. -/
theorem doApiCall_returns {ρ : Type} (E : Env) (unmarshal : String → ρ → LibResult ρ)
    (method resource : String) (query : Option Values)
    (reqData : Option ReqData) (respData : Option ρ) (w : World) :
    ∃ r w1, doApiCall E unmarshal method resource query reqData respData w = some (r, w1) :=
  doApiCallLoop_returns E unmarshal method resource query reqData respData 4 0 false w
    (by omega) (by omega)

/-- One cycle of the outer loop of `doApiCall` that ends in a 401. -/
theorem doApiCallLoop_unauthorized {ρ : Type} (E : Env) (unmarshal : String → ρ → LibResult ρ)
    (method resource : String) (query : Option Values)
    (reqData : Option ReqData) (respData : Option ρ)
    (hE : E.accepts) (hres : resource ≠ "/oauth2/token")
    (fuel repeatAllCnt : Nat) (force : Bool) (w w1 : World) (token : String)
    (hTok : getToken E force w = some (Res.ok token, w1))
    (h401 : hasStatus (E.apiAnswer w.apiSent) 401) :
    doApiCallLoop E unmarshal method resource query reqData respData
        (fuel + 1) repeatAllCnt force w =
      (if repeatAllCnt + 1 > 3 then
        some (Res.err (Err.new "Unable to submit a request (authorization failed)"),
          sentApi w1 (apiRequest method resource query reqData token))
      else
        doApiCallLoop E unmarshal method resource query reqData respData
          fuel (repeatAllCnt + 1) true
          (sentApi w1 (apiRequest method resource query reqData token))) ∧
    (sentApi w1 (apiRequest method resource query reqData token)).apiSent = w.apiSent + 1 ∧
    tokenCalls (sentApi w1 (apiRequest method resource query reqData token)).log =
      tokenCalls w.log ++ [force] ∧
    apiRequests (sentApi w1 (apiRequest method resource query reqData token)).log =
      apiRequests w.log ++ [apiRequest method resource query reqData token] := by
  have hurl := apiUrl_ne_authEndpoint resource hres
  have ht := getToken_frame E force w _ w1 hTok
  have ha : w1.apiSent = w.apiSent := ht.2.2.1
  refine ⟨?_, ?_, ?_, ?_⟩
  · refine doApiCallLoop_brk E unmarshal method resource query reqData respData fuel
      repeatAllCnt force w w1 _ token hTok ?_
    exact doApiCallInner_401 E unmarshal _ method _ query reqData respData hE hurl 10 0 w1
      (answerResult_401 _ _ _ _ (by rw [ha]; exact h401))
  · show w1.apiSent + 1 = _
    rw [ha]
  · show tokenCalls (w1.log ++ [Event.request _]) = _
    rw [tokenCalls_append, tokenStep_calls ht]
    simp [tokenCalls]
  · show apiRequests (w1.log ++ [Event.request _]) = _
    rw [apiRequests_append, tokenStep_requests ht]
    simp [apiRequests, apiRequest_url, hurl]

theorem getToken_succeeds (E : Env) (hE : E.accepts) (t : TokenResponse)
    (h : ∀ k, answerResult E E.unmarshalToken (some ⟨0, "", ""⟩) (E.authAnswer k) =
      Res.ok (some t))
    (ht : validToken t) (forceUpdate : Bool) (w : World) :
    ∃ tok w1, getToken E forceUpdate w = some (Res.ok tok, w1) := by
  by_cases hv : cacheValid E forceUpdate w
  · exact ⟨_, _, getToken_cached E forceUpdate w hv⟩
  · exact ⟨_, _, getToken_backoff E hE forceUpdate w 0 t (by omega) hv
      (fun k hk => absurd hk (Nat.not_lt_zero k)) (h _) ht⟩

/-! ## C1: the bound of the outer loop of `doApiCall` -/

/-- C1, counterexample.  The token source always succeeds and the transport answers 401 to
three consecutive HTTP calls, yet `doApiCall` does not return the authorization error after
those three calls: it calls `getToken` a fourth time, makes a fourth HTTP call and returns
that call's success. -/
theorem three_unauthorized_counterexample :
    (∀ k, k < 3 → thriceUnauthorizedEnv.apiAnswer k = statusAnswer 401) ∧
    (doApiCall thriceUnauthorizedEnv unmarshalUnit "GET" "/users" none none none warmWorld).map
      (fun p => (p.1, p.2.apiSent, tokenCalls p.2.log)) =
      some (Res.ok none, 4, [false, true, true, true]) := by
  decide

/-- C1 (amended). With a token source that always succeeds: if the transport answers 401 to
four consecutive HTTP calls, `doApiCall` returns the terminal error
"Unable to submit a request (authorization failed)" after exactly those four calls, having
called `getToken` four times, first not forced and then forced three times.  In every run the
outer loop makes at most 4 cycles: at most 4 calls of `getToken`. -/
theorem authorization_exhausted_after_four (E : Env) {ρ : Type}
    (unmarshal : String → ρ → LibResult ρ) (method resource : String)
    (query : Option Values) (reqData : Option ReqData) (respData : Option ρ) (w : World)
    (hE : E.accepts) (hres : resource ≠ "/oauth2/token")
    (hTok : ∀ (f : Bool) (w0 : World), ∃ t w1, getToken E f w0 = some (Res.ok t, w1))
    (h401 : ∀ k, k < 4 → hasStatus (E.apiAnswer (w.apiSent + k)) 401) :
    (∃ w1, doApiCall E unmarshal method resource query reqData respData w =
        some (Res.err (Err.new "Unable to submit a request (authorization failed)"), w1) ∧
      w1.apiSent = w.apiSent + 4 ∧
      tokenCalls w1.log = tokenCalls w.log ++ [false, true, true, true]) ∧
    (∀ r w1, doApiCall E unmarshal method resource query reqData respData w = some (r, w1) →
      (tokenCalls w1.log).length ≤ (tokenCalls w.log).length + 4) := by
  constructor
  · obtain ⟨t1, a1, g1⟩ := hTok false w
    obtain ⟨c1, s1, l1, -⟩ := doApiCallLoop_unauthorized E unmarshal method resource query
      reqData respData hE hres 3 0 false w a1 t1 g1 (h401 0 (by omega))
    obtain ⟨t2, a2, g2⟩ := hTok true (sentApi a1 (apiRequest method resource query reqData t1))
    obtain ⟨c2, s2, l2, -⟩ := doApiCallLoop_unauthorized E unmarshal method resource query
      reqData respData hE hres 2 1 true _ a2 t2 g2 (by rw [s1]; exact h401 1 (by omega))
    obtain ⟨t3, a3, g3⟩ := hTok true (sentApi a2 (apiRequest method resource query reqData t2))
    obtain ⟨c3, s3, l3, -⟩ := doApiCallLoop_unauthorized E unmarshal method resource query
      reqData respData hE hres 1 2 true _ a3 t3 g3
      (by rw [s2, s1]; exact h401 2 (by omega))
    obtain ⟨t4, a4, g4⟩ := hTok true (sentApi a3 (apiRequest method resource query reqData t3))
    obtain ⟨c4, s4, l4, -⟩ := doApiCallLoop_unauthorized E unmarshal method resource query
      reqData respData hE hres 0 3 true _ a4 t4 g4
      (by rw [s3, s2, s1]; exact h401 3 (by omega))
    refine ⟨sentApi a4 (apiRequest method resource query reqData t4), ?_, ?_, ?_⟩
    · unfold doApiCall
      rw [c1, if_neg (by omega), c2, if_neg (by omega), c3, if_neg (by omega), c4,
        if_pos (by omega)]
    · rw [s4, s3, s2, s1]
    · rw [l4, l3, l2, l1]
      simp only [List.append_assoc, List.singleton_append, List.cons_append, List.nil_append]
  · intro r w1 h
    have := (doApiCallLoop_bounds E unmarshal method resource query reqData respData hres
      4 0 false w r w1 (by omega) h).1
    omega

/-- C1 (amended), witness: a remote side whose token endpoint always succeeds and whose API
answers 401 to every request. -/
theorem authorization_exhausted_after_four_witness :
    (∃ w1, doApiCall alwaysUnauthorizedEnv unmarshalUnit "GET" "/users" none none none
        warmWorld =
        some (Res.err (Err.new "Unable to submit a request (authorization failed)"), w1) ∧
      w1.apiSent = warmWorld.apiSent + 4 ∧
      tokenCalls w1.log = tokenCalls warmWorld.log ++ [false, true, true, true]) ∧
    (∀ r w1, doApiCall alwaysUnauthorizedEnv unmarshalUnit "GET" "/users" none none none
        warmWorld = some (r, w1) →
      (tokenCalls w1.log).length ≤ (tokenCalls warmWorld.log).length + 4) :=
  authorization_exhausted_after_four alwaysUnauthorizedEnv unmarshalUnit "GET" "/users"
    none none none warmWorld (exampleEnv_accepts _ _) (by decide)
    (getToken_succeeds alwaysUnauthorizedEnv (exampleEnv_accepts _ _) ⟨3600, "fresh", "bearer"⟩
      (fun _ => rfl) ⟨by decide, by decide⟩)
    (fun _ _ => ⟨_, rfl, rfl⟩)

/-! ## C2: one forced refresh after a 401 -/

/-- C2. If the first HTTP call of `doApiCall` is answered 401 and the next HTTP call has an
outcome `r` other than 401 and 429 (a success, another error status, or a failure of the
transport), then `getToken` is called exactly twice, first with `forceUpdate = false` and
then with `forceUpdate = true`, exactly two HTTP calls are made, the second carries the
header `Authorization: Bearer <refreshed token>`, and `doApiCall` returns `r` unchanged. -/
theorem refresh_once_after_unauthorized (E : Env) {ρ : Type}
    (unmarshal : String → ρ → LibResult ρ) (method resource : String)
    (query : Option Values) (reqData : Option ReqData) (respData : Option ρ)
    (w w1 w2 : World) (t1 t2 : String) (r : Res (Option ρ))
    (hE : E.accepts) (hres : resource ≠ "/oauth2/token")
    (hTok1 : getToken E false w = some (Res.ok t1, w1))
    (h401 : hasStatus (E.apiAnswer w.apiSent) 401)
    (hTok2 : getToken E true (sentApi w1 (apiRequest method resource query reqData t1)) =
      some (Res.ok t2, w2))
    (hr : answerResult E unmarshal respData (E.apiAnswer (w.apiSent + 1)) = r)
    (hr1 : r ≠ Res.err Err.rateLimit) (hr2 : r ≠ Res.err Err.unauthorized) :
    doApiCall E unmarshal method resource query reqData respData w =
      some (r, sentApi w2 (apiRequest method resource query reqData t2)) ∧
    tokenCalls (sentApi w2 (apiRequest method resource query reqData t2)).log =
      tokenCalls w.log ++ [false, true] ∧
    apiRequests (sentApi w2 (apiRequest method resource query reqData t2)).log =
      apiRequests w.log ++ [apiRequest method resource query reqData t1,
        apiRequest method resource query reqData t2] ∧
    (sentApi w2 (apiRequest method resource query reqData t2)).apiSent = w.apiSent + 2 ∧
    (apiRequest method resource query reqData t2).header =
      [("Accept", "application/json"), ("Content-Type", "application/json"),
        ("Authorization", "Bearer " ++ t2)] := by
  have hurl := apiUrl_ne_authEndpoint resource hres
  obtain ⟨c1, s1, l1, q1⟩ := doApiCallLoop_unauthorized E unmarshal method resource query
    reqData respData hE hres 3 0 false w w1 t1 hTok1 h401
  have ht := getToken_frame E true _ _ w2 hTok2
  have ha : w2.apiSent = w.apiSent + 1 := by rw [ht.2.2.1, s1]
  refine ⟨?_, ?_, ?_, ?_, apiRequest_header _ _ _ _ _⟩
  · unfold doApiCall
    rw [c1, if_neg (by omega)]
    refine doApiCallLoop_ret E unmarshal method resource query reqData respData 2 1 true
      _ w2 _ t2 r hTok2 ?_
    exact doApiCallInner_other E unmarshal _ method _ query reqData respData hE hurl 10 0 w2 r
      (by rw [ha]; exact hr) hr1 hr2
  · show tokenCalls (w2.log ++ [Event.request _]) = _
    rw [tokenCalls_append, tokenStep_calls ht, l1]
    simp [tokenCalls]
  · show apiRequests (w2.log ++ [Event.request _]) = _
    rw [apiRequests_append, tokenStep_requests ht, q1]
    simp [apiRequests, apiRequest_url, hurl]
  · show w2.apiSent + 1 = _
    rw [ha]

/-- C2, witness: a cached token that the API rejects once; the retried call is answered
404, which `doApiCall` returns as it is. -/
theorem refresh_once_after_unauthorized_witness :
    doApiCall onceUnauthorizedEnv unmarshalUnit "GET" "/users" none none none warmWorld =
      some (Res.err (Err.remote 404 none),
        sentApi (storedWorld onceUnauthorizedEnv ⟨3600, "fresh", "bearer"⟩
          (sentAuth (fetchEntry true (sentApi (cachedWorld warmWorld)
            (apiRequest "GET" "/users" none none "cached")))
            (tokenRequest warmWorld)))
          (apiRequest "GET" "/users" none none "fresh")) ∧
    tokenCalls (sentApi (storedWorld onceUnauthorizedEnv ⟨3600, "fresh", "bearer"⟩
          (sentAuth (fetchEntry true (sentApi (cachedWorld warmWorld)
            (apiRequest "GET" "/users" none none "cached")))
            (tokenRequest warmWorld)))
          (apiRequest "GET" "/users" none none "fresh")).log =
      tokenCalls warmWorld.log ++ [false, true] ∧
    apiRequests (sentApi (storedWorld onceUnauthorizedEnv ⟨3600, "fresh", "bearer"⟩
          (sentAuth (fetchEntry true (sentApi (cachedWorld warmWorld)
            (apiRequest "GET" "/users" none none "cached")))
            (tokenRequest warmWorld)))
          (apiRequest "GET" "/users" none none "fresh")).log =
      apiRequests warmWorld.log ++ [apiRequest "GET" "/users" none none "cached",
        apiRequest "GET" "/users" none none "fresh"] ∧
    (sentApi (storedWorld onceUnauthorizedEnv ⟨3600, "fresh", "bearer"⟩
          (sentAuth (fetchEntry true (sentApi (cachedWorld warmWorld)
            (apiRequest "GET" "/users" none none "cached")))
            (tokenRequest warmWorld)))
          (apiRequest "GET" "/users" none none "fresh")).apiSent = warmWorld.apiSent + 2 ∧
    (apiRequest "GET" "/users" none none "fresh").header =
      [("Accept", "application/json"), ("Content-Type", "application/json"),
        ("Authorization", "Bearer " ++ "fresh")] :=
  refresh_once_after_unauthorized onceUnauthorizedEnv unmarshalUnit "GET" "/users"
    none none none warmWorld (cachedWorld warmWorld) _ "cached" "fresh"
    (Res.err (Err.remote 404 none)) (exampleEnv_accepts _ _) (by decide) (by decide)
    ⟨_, rfl, rfl⟩ (by decide) (by decide) (by decide) (by decide)

/-! ## C4: the bound of the rate-limit retries -/

/-- C4, counterexample.  Ten consecutive answers 429 do not produce the rate-limit error:
`getToken` makes an eleventh token request and returns its token, and `doApiCall` makes an
eleventh HTTP call with the same token (no token request) and returns its success. -/
theorem ten_rate_limits_counterexample :
    (∀ k, k < 10 → tenLimitedEnv.authAnswer k = statusAnswer 429) ∧
    (getToken tenLimitedEnv true freshWorld).map (fun p => (p.1, p.2.authSent)) =
      some (Res.ok "fresh", 11) ∧
    (∀ k, k < 10 → tenLimitedEnv.apiAnswer k = statusAnswer 429) ∧
    (doApiCall tenLimitedEnv unmarshalUnit "GET" "/users" none none none warmWorld).map
      (fun p => (p.1, p.2.apiSent, p.2.authSent)) = some (Res.ok none, 11, 0) := by
  decide

/-- C4 (amended). The rate-limit retry bound is 10 retries, that is 11 attempts.  One
invocation of `getToken` issues at most 11 token requests, and returns its rate-limit error
after exactly 11 requests and 11 sleeps when all eleven are answered 429.  One inner loop of
`doApiCall` issues at most 11 HTTP calls, all of them the same request (same token), and
returns the rate-limit error after exactly 11 calls and 11 sleeps when all eleven are
answered 429. -/
theorem rate_limit_bound_eleven (E : Env) (hE : E.accepts) :
    (∀ (forceUpdate : Bool) (w : World) (r : Res String) (w1 : World),
      getToken E forceUpdate w = some (r, w1) → w1.authSent ≤ w.authSent + 11) ∧
    (∀ (forceUpdate : Bool) (w : World), ¬ cacheValid E forceUpdate w →
      (∀ k, k < 11 → hasStatus (E.authAnswer (w.authSent + k)) 429) →
      ∃ w1, getToken E forceUpdate w =
          some (Res.err (Err.new "Unable to submit auth-token update request (rate-limit)"),
            w1) ∧
        w1.authSent = w.authSent + 11 ∧ sleepCount w1.log = sleepCount w.log + 11) ∧
    (∀ {ρ : Type} (unmarshal : String → ρ → LibResult ρ) (url method : String)
      (authHeader : Header) (query : Option Values) (reqData : Option ReqData)
      (respData : Option ρ) (w : World) (x : InnerExit ρ) (w1 : World),
      url ≠ helpscoutAuthEndpoint →
      doApiCallInner E unmarshal url method authHeader query reqData respData 11 0 w =
        some (x, w1) →
      w1.apiSent ≤ w.apiSent + 11 ∧ w1.authSent = w.authSent ∧
        ∃ evs, w1.log = w.log ++ evs ∧ ∀ e, e ∈ evs → e = Event.sleep ∨
          e = Event.request (buildRequest url method (some authHeader) query reqData)) ∧
    (∀ {ρ : Type} (unmarshal : String → ρ → LibResult ρ) (url method : String)
      (authHeader : Header) (query : Option Values) (reqData : Option ReqData)
      (respData : Option ρ) (w : World),
      url ≠ helpscoutAuthEndpoint →
      (∀ k, k < 11 → hasStatus (E.apiAnswer (w.apiSent + k)) 429) →
      ∃ w1, doApiCallInner E unmarshal url method authHeader query reqData respData 11 0 w =
          some (InnerExit.ret (Res.err (Err.new "Unable to submit a request (rate-limit)")),
            w1) ∧
        w1.apiSent = w.apiSent + 11 ∧ sleepCount w1.log = sleepCount w.log + 11) := by
  refine ⟨?_, ?_, ?_, ?_⟩
  · intro forceUpdate w r w1 h
    exact (getToken_frame E forceUpdate w r w1 h).2.2.2.2.1
  · intro forceUpdate w hv h429
    obtain ⟨_, _, _, e4, _, _, e7⟩ := fetchEntry_fields forceUpdate w
    refine ⟨_, getToken_exhausted E hE forceUpdate w hv h429, ?_, ?_⟩
    · show (fetchEntry forceUpdate w).authSent + 11 = _
      rw [e4]
    · show sleepCount ((fetchEntry forceUpdate w).log ++ retries (tokenRequest w) 11) = _
      rw [e7]
      simp only [sleepCount_append, sleepCount_retries, sleepCount_tokenCall]
  · intro ρ unmarshal url method authHeader query reqData respData w x w1 hurl h
    obtain ⟨⟨_, _, _, _, ha, _, _, evs, hl, hq⟩, hb⟩ := doApiCallInner_frame E unmarshal url
      method authHeader query reqData respData hurl 11 0 w x w1 (by omega) h
    exact ⟨by omega, ha, evs, hl, hq⟩
  · intro ρ unmarshal url method authHeader query reqData respData w hurl h429
    refine ⟨_, doApiCallInner_exhausted E unmarshal url method authHeader query reqData
      respData hE hurl w h429, rfl, ?_⟩
    show sleepCount (w.log ++ retries _ 11) = _
    simp only [sleepCount_append, sleepCount_retries]

/-- C4 (amended), witness: a remote side that answers 429 eleven times. -/
theorem rate_limit_bound_eleven_witness :
    (retriedAuth (fetchEntry true freshWorld) (tokenRequest freshWorld) 11).authSent
      ≤ freshWorld.authSent + 11 ∧
    (∃ w1, getToken elevenLimitedEnv true freshWorld =
        some (Res.err (Err.new "Unable to submit auth-token update request (rate-limit)"),
          w1) ∧
      w1.authSent = freshWorld.authSent + 11 ∧
      sleepCount w1.log = sleepCount freshWorld.log + 11) ∧
    ((retriedApi warmWorld (apiRequest "GET" "/users" none none "cached") 11).apiSent
        ≤ warmWorld.apiSent + 11 ∧
      (retriedApi warmWorld (apiRequest "GET" "/users" none none "cached") 11).authSent =
        warmWorld.authSent ∧
      ∃ evs, (retriedApi warmWorld (apiRequest "GET" "/users" none none "cached") 11).log =
          warmWorld.log ++ evs ∧
        ∀ e, e ∈ evs → e = Event.sleep ∨ e = Event.request
          (buildRequest (helpscoutApiEndpoint ++ "/users") "GET"
            (some [("Authorization", "Bearer cached")]) none none)) ∧
    (∃ w1, doApiCallInner elevenLimitedEnv unmarshalUnit (helpscoutApiEndpoint ++ "/users")
        "GET" [("Authorization", "Bearer cached")] none none none 11 0 warmWorld =
        some (InnerExit.ret (Res.err (Err.new "Unable to submit a request (rate-limit)")),
          w1) ∧
      w1.apiSent = warmWorld.apiSent + 11 ∧
      sleepCount w1.log = sleepCount warmWorld.log + 11) :=
  ⟨(rate_limit_bound_eleven elevenLimitedEnv (exampleEnv_accepts _ _)).1 true freshWorld
      (Res.err (Err.new "Unable to submit auth-token update request (rate-limit)"))
      (retriedAuth (fetchEntry true freshWorld) (tokenRequest freshWorld) 11) (by decide),
    (rate_limit_bound_eleven elevenLimitedEnv (exampleEnv_accepts _ _)).2.1 true freshWorld
      (fun h => Bool.noConfusion h.1) (fun k hk => firstThen_status 11 429 _ _ k rfl hk),
    (rate_limit_bound_eleven elevenLimitedEnv (exampleEnv_accepts _ _)).2.2.1 unmarshalUnit
      (helpscoutApiEndpoint ++ "/users") "GET" [("Authorization", "Bearer cached")]
      none none none warmWorld
      (InnerExit.ret (Res.err (Err.new "Unable to submit a request (rate-limit)")))
      (retriedApi warmWorld (apiRequest "GET" "/users" none none "cached") 11)
      (by decide) (by decide),
    (rate_limit_bound_eleven elevenLimitedEnv (exampleEnv_accepts _ _)).2.2.2 unmarshalUnit
      (helpscoutApiEndpoint ++ "/users") "GET" [("Authorization", "Bearer cached")]
      none none none warmWorld (by decide)
      (fun k hk => firstThen_status 11 429 _ _ k rfl hk)⟩

/-! ## C5: the guard of the token cache -/

theorem getTokenLoop_sends (E : Env) (reqData : authReqData) (hE : E.accepts)
    (fuel repeatCnt : Nat) (rj : TokenResponse) (w : World) (r : Res TokenResponse)
    (w1 : World) (hc : repeatCnt ≤ 10)
    (h : getTokenLoop E reqData (fuel + 1) repeatCnt rj w = some (r, w1)) :
    w.authSent + 1 ≤ w1.authSent := by
  rw [getTokenLoop, doRequest_auth E _ _ _ _ _ _ _ hE] at h
  split at h
  · rename_i heq
    simp only [Prod.mk.injEq] at heq
    obtain ⟨_, rfl⟩ := heq
    dsimp only at h
    split at h
    · simp only [Option.some.injEq, Prod.mk.injEq] at h
      obtain ⟨_, rfl⟩ := h
      exact Nat.le_refl _
    · have h3 := (getTokenLoop_frame E reqData fuel (repeatCnt + 1) rj _ r w1 (by omega) h).1
      exact h3.2.2.2.2.2.2.1
  · rename_i heq
    simp only [Prod.mk.injEq] at heq
    obtain ⟨_, rfl⟩ := heq
    simp only [Option.some.injEq, Prod.mk.injEq] at h
    obtain ⟨_, rfl⟩ := h
    exact Nat.le_refl _
  · rename_i heq
    simp only [Prod.mk.injEq] at heq
    obtain ⟨_, rfl⟩ := heq
    simp only [Option.some.injEq, Prod.mk.injEq] at h
    obtain ⟨_, rfl⟩ := h
    exact Nat.le_refl _
  · rename_i heq
    simp only [Prod.mk.injEq] at heq
    obtain ⟨_, rfl⟩ := heq
    simp only [Option.some.injEq, Prod.mk.injEq] at h
    obtain ⟨_, rfl⟩ := h
    exact Nat.le_refl _

theorem getToken_fetch_sends (E : Env) (hE : E.accepts) (forceUpdate : Bool) (w : World)
    (r : Res String) (w1 : World) (hv : ¬ cacheValid E forceUpdate w)
    (h : getToken E forceUpdate w = some (r, w1)) :
    w.authSent + 1 ≤ w1.authSent := by
  rw [getToken_fetch E forceUpdate w hv] at h
  obtain ⟨_, _, _, e4, _, _, _⟩ := fetchEntry_fields forceUpdate w
  generalize hl : getTokenLoop E
    { ClientId := w.appId, ClientSecret := w.appKey, GrantType := "client_credentials" }
    11 0 ⟨0, "", ""⟩ (fetchEntry forceUpdate w) = x at h
  rcases x with _ | ⟨x, w2⟩
  · simp [finishFetch] at h
  · have hs := getTokenLoop_sends E _ hE 10 0 _ _ x w2 (by omega) hl
    rw [e4] at hs
    cases x with
    | err e =>
      simp only [finishFetch, Option.some.injEq, Prod.mk.injEq] at h
      obtain ⟨_, rfl⟩ := h
      exact hs
    | ok rj =>
      simp only [finishFetch] at h
      split at h
      · simp only [Option.some.injEq, Prod.mk.injEq] at h
        obtain ⟨_, rfl⟩ := h
        exact hs
      · simp only [Option.some.injEq, Prod.mk.injEq] at h
        obtain ⟨_, rfl⟩ := h
        exact hs

/-- C5. `getToken(forceUpdate)` makes zero network requests, returns exactly the cached
token string and leaves the cached token and expiry unchanged if and only if `forceUpdate`
is false, the cached token is non-empty and the cached expiry is strictly later than
now + 10 minutes (`cacheValid`).  In every other case, in particular whenever `forceUpdate`
is true, whatever the cache holds, it returns after issuing at least one token request. -/
theorem token_cache_guard (E : Env) (hE : E.accepts) (forceUpdate : Bool) (w : World) :
    ((∃ w1, getToken E forceUpdate w = some (Res.ok w.token, w1) ∧
        w1.authSent = w.authSent ∧ w1.apiSent = w.apiSent ∧
        w1.token = w.token ∧ w1.tokenExpireTime = w.tokenExpireTime) ↔
      (forceUpdate = false ∧ w.token ≠ "" ∧
        w.tokenExpireTime > E.clock w.clockReads + tenMinutes)) ∧
    (¬ (forceUpdate = false ∧ w.token ≠ "" ∧
        w.tokenExpireTime > E.clock w.clockReads + tenMinutes) →
      ∃ r w1, getToken E forceUpdate w = some (r, w1) ∧ w.authSent + 1 ≤ w1.authSent) ∧
    (∀ w0 : World, ∃ r w1, getToken E true w0 = some (r, w1) ∧
      w0.authSent + 1 ≤ w1.authSent) := by
  have key : ∀ (f : Bool) (w0 : World), ¬ cacheValid E f w0 →
      ∃ r w1, getToken E f w0 = some (r, w1) ∧ w0.authSent + 1 ≤ w1.authSent := by
    intro f w0 hv
    obtain ⟨r, w1, h⟩ := getToken_returns E f w0
    exact ⟨r, w1, h, getToken_fetch_sends E hE f w0 r w1 hv h⟩
  refine ⟨⟨?_, ?_⟩, ?_, ?_⟩
  · rintro ⟨w1, h, ha, _, _, _⟩
    by_contra hv
    have := getToken_fetch_sends E hE forceUpdate w _ w1 hv h
    omega
  · intro hv
    exact ⟨cachedWorld w, getToken_cached E forceUpdate w hv, rfl, rfl, rfl, rfl⟩
  · intro hv
    exact key forceUpdate w hv
  · intro w0
    exact key true w0 (fun hv => Bool.noConfusion hv.1)

/-- C5, witness: a client whose cached token is still valid for 11 minutes, against a
remote side that accepts every request. -/
theorem token_cache_guard_witness :
    ((∃ w1, getToken healthyEnv false warmWorld = some (Res.ok warmWorld.token, w1) ∧
        w1.authSent = warmWorld.authSent ∧ w1.apiSent = warmWorld.apiSent ∧
        w1.token = warmWorld.token ∧ w1.tokenExpireTime = warmWorld.tokenExpireTime) ↔
      ((false : Bool) = false ∧ warmWorld.token ≠ "" ∧
        warmWorld.tokenExpireTime > healthyEnv.clock warmWorld.clockReads + tenMinutes)) ∧
    (¬ ((false : Bool) = false ∧ warmWorld.token ≠ "" ∧
        warmWorld.tokenExpireTime > healthyEnv.clock warmWorld.clockReads + tenMinutes) →
      ∃ r w1, getToken healthyEnv false warmWorld = some (r, w1) ∧
        warmWorld.authSent + 1 ≤ w1.authSent) ∧
    (∀ w0 : World, ∃ r w1, getToken healthyEnv true w0 = some (r, w1) ∧
      w0.authSent + 1 ≤ w1.authSent) :=
  token_cache_guard healthyEnv (exampleEnv_accepts _ _) false warmWorld

/-! ## C9: the status table of `doRequest` -/

theorem doRequest_of_response {ρ : Type} (E : Env) (unmarshal : String → ρ → LibResult ρ)
    (url method : String) (headers : Option Header) (query : Option Values)
    (reqData : Option ReqData) (respData : Option ρ) (w : World) (response : Response)
    (hE : E.accepts)
    (hDo : (transportDo E (buildRequest url method headers query reqData) w).1 =
      LibResult.ok response) :
    (doRequest E unmarshal url method headers query reqData respData w).1 =
      handleResponse E unmarshal response respData := by
  have hm : (match reqData with
         | some d => E.marshalError d
         | none => none) = none := by
    cases reqData with
    | none => rfl
    | some d => exact hE.1 d
  unfold doRequest
  rw [hm]
  simp only [hE.2 method url]
  generalize transportDo E (buildRequest url method headers query reqData) w = p at hDo
  obtain ⟨a, w1⟩ := p
  simp only at hDo
  subst hDo
  rfl

/-- C9, counterexample.  A response with status 500 whose body is not empty and does not
parse as the error envelope gives an error that carries neither the envelope nor the raw
status code, but the parse failure; and a response with status 200 and content type
`application/json` does not succeed when its body does not parse into the response
target. -/
theorem status_table_counterexample :
    brokenEnv.unmarshalErrResp "<html>" = LibResult.fail "invalid character" ∧
    (doRequest brokenEnv unmarshalUnit (helpscoutApiEndpoint ++ "/users") "GET" none none none
        (some ()) freshWorld).1 =
      Res.err (Err.wrap (Err.lib "invalid character")
        "Unable to parse error response-body as json") ∧
    (doRequest brokenEnv unmarshalUnit (helpscoutApiEndpoint ++ "/users") "GET" none none none
        (some ()) freshWorld).1 ≠ Res.err (Err.remote 500 none) ∧
    (doRequest healthyEnv unmarshalNothing (helpscoutApiEndpoint ++ "/users") "GET" none none
        none (some ()) freshWorld).1 =
      Res.err (Err.wrap (Err.lib "unexpected end of JSON input")
        "Unable to parse response-body as json") := by
  decide

/-- C9 (amended). Once the transport has returned a response, the outcome of `doRequest` is
determined as follows.  201: success, with the response target untouched (body and content
type ignored).  429: the sentinel `ErrorRateLimit`.  401: the sentinel `ErrorUnauthorized`.
200: the invalid-content-type error exactly when the Content-Type contains neither
`application/json` nor `application/hal+json`; otherwise success when the response target
is nil, and with a non-nil target success with the parsed body when the body can be read
and parses, a read error or parse error when not.  Every other status: an error that is
neither sentinel, namely the status code with the decoded envelope when the body is not
empty and parses as the envelope, the raw status code when the body is empty, the read
error when the body cannot be read, and the parse error when the body is not empty and does
not parse. -/
theorem doRequest_status_table {ρ : Type} (E : Env) (unmarshal : String → ρ → LibResult ρ)
    (url method : String) (headers : Option Header) (query : Option Values)
    (reqData : Option ReqData) (respData : Option ρ) (w : World) (response : Response)
    (hE : E.accepts)
    (hDo : (transportDo E (buildRequest url method headers query reqData) w).1 =
      LibResult.ok response) :
    (response.StatusCode = 201 →
      (doRequest E unmarshal url method headers query reqData respData w).1 =
        Res.ok respData) ∧
    (response.StatusCode = 429 →
      (doRequest E unmarshal url method headers query reqData respData w).1 =
        Res.err Err.rateLimit) ∧
    (response.StatusCode = 401 →
      (doRequest E unmarshal url method headers query reqData respData w).1 =
        Res.err Err.unauthorized) ∧
    (response.StatusCode = 200 →
      ((doRequest E unmarshal url method headers query reqData respData w).1 =
          Res.err (Err.invalidContentType response.ContentType) ↔
        (stringsContains response.ContentType "application/json" = false ∧
          stringsContains response.ContentType "application/hal+json" = false)) ∧
      ((stringsContains response.ContentType "application/json" = true ∨
          stringsContains response.ContentType "application/hal+json" = true) →
        (respData = none →
          (doRequest E unmarshal url method headers query reqData respData w).1 =
            Res.ok none) ∧
        (∀ target, respData = some target →
          (∀ msg, response.Body = LibResult.fail msg →
            (doRequest E unmarshal url method headers query reqData respData w).1 =
              Res.err (Err.wrap (Err.lib msg) "Unable to read response body")) ∧
          (∀ body msg, response.Body = LibResult.ok body →
            unmarshal body target = LibResult.fail msg →
            (doRequest E unmarshal url method headers query reqData respData w).1 =
              Res.err (Err.wrap (Err.lib msg) "Unable to parse response-body as json")) ∧
          (∀ body v, response.Body = LibResult.ok body →
            unmarshal body target = LibResult.ok v →
            (doRequest E unmarshal url method headers query reqData respData w).1 =
              Res.ok (some v))))) ∧
    (response.StatusCode ≠ 201 → response.StatusCode ≠ 200 →
      response.StatusCode ≠ 429 → response.StatusCode ≠ 401 →
      (doRequest E unmarshal url method headers query reqData respData w).1 ≠
        Res.err Err.rateLimit ∧
      (doRequest E unmarshal url method headers query reqData respData w).1 ≠
        Res.err Err.unauthorized ∧
      (∀ body envelope, response.Body = LibResult.ok body → body.length ≠ 0 →
        E.unmarshalErrResp body = LibResult.ok envelope →
        (doRequest E unmarshal url method headers query reqData respData w).1 =
          Res.err (Err.remote response.StatusCode (some envelope))) ∧
      (∀ body, response.Body = LibResult.ok body → body.length = 0 →
        (doRequest E unmarshal url method headers query reqData respData w).1 =
          Res.err (Err.remote response.StatusCode none)) ∧
      (∀ msg, response.Body = LibResult.fail msg →
        (doRequest E unmarshal url method headers query reqData respData w).1 =
          Res.err (Err.wrap (Err.lib msg)
            "Unable to read response body to decode error")) ∧
      (∀ body msg, response.Body = LibResult.ok body → body.length ≠ 0 →
        E.unmarshalErrResp body = LibResult.fail msg →
        (doRequest E unmarshal url method headers query reqData respData w).1 =
          Res.err (Err.wrap (Err.lib msg)
            "Unable to parse error response-body as json"))) := by
  rw [doRequest_of_response E unmarshal url method headers query reqData respData w response
    hE hDo]
  refine ⟨?_, ?_, ?_, ?_, ?_⟩
  · intro h
    simp [handleResponse, h]
  · intro h
    simp [handleResponse, h]
  · intro h
    simp [handleResponse, h]
  · intro h
    refine ⟨?_, ?_⟩
    · constructor
      · intro hout
        by_contra hc
        have hct : ¬ ((!stringsContains response.ContentType "application/json" &&
            !stringsContains response.ContentType "application/hal+json") = true) := by
          intro hb
          simp only [Bool.and_eq_true, Bool.not_eq_true'] at hb
          exact hc hb
        simp only [handleResponse, h, hct] at hout
        simp at hout
        revert hout
        cases respData with
        | none => simp
        | some target =>
          cases response.Body with
          | fail msg => simp
          | ok body =>
            dsimp only
            split <;> simp
      · rintro ⟨h1, h2⟩
        simp [handleResponse, h, h1, h2]
    · intro hc
      have hct : ¬ ((!stringsContains response.ContentType "application/json" &&
          !stringsContains response.ContentType "application/hal+json") = true) := by
        intro hb
        simp only [Bool.and_eq_true, Bool.not_eq_true'] at hb
        rcases hc with hc | hc
        · rw [hb.1] at hc; exact Bool.noConfusion hc
        · rw [hb.2] at hc; exact Bool.noConfusion hc
      refine ⟨?_, ?_⟩
      · intro hn
        subst hn
        simp [handleResponse, h, hct]
      · intro target hs
        subst hs
        refine ⟨?_, ?_, ?_⟩
        · intro msg hb
          simp [handleResponse, h, hct, hb]
        · intro body msg hb hu
          simp [handleResponse, h, hct, hb, hu]
        · intro body v hb hu
          simp [handleResponse, h, hct, hb, hu]
  · intro h201 h200 h429 h401
    refine ⟨?_, ?_, ?_, ?_, ?_, ?_⟩
    · simp only [handleResponse, h201, h200, h429, h401, if_false, ne_eq, not_false_eq_true,
        if_true]
      cases response.Body with
      | fail msg => simp
      | ok body =>
        dsimp only
        split
        · cases E.unmarshalErrResp body <;> simp
        · simp
    · simp only [handleResponse, h201, h200, h429, h401, if_false, ne_eq, not_false_eq_true,
        if_true]
      cases response.Body with
      | fail msg => simp
      | ok body =>
        dsimp only
        split
        · cases E.unmarshalErrResp body <;> simp
        · simp
    · intro body envelope hb hl hu
      simp [handleResponse, h201, h200, h429, h401, hb, hl, hu]
    · intro body hb hl
      simp [handleResponse, h201, h200, h429, h401, hb, hl]
    · intro msg hb
      simp [handleResponse, h201, h200, h429, h401, hb]
    · intro body msg hb hl hu
      simp [handleResponse, h201, h200, h429, h401, hb, hl, hu]

/-- C9 (amended), witness: the response with status 500 and an HTML body. -/
theorem doRequest_status_table_witness :
    (doRequest brokenEnv unmarshalUnit (helpscoutApiEndpoint ++ "/users") "GET" none none none
        (some ()) freshWorld).1 ≠ Res.err Err.rateLimit ∧
    (doRequest brokenEnv unmarshalUnit (helpscoutApiEndpoint ++ "/users") "GET" none none none
        (some ()) freshWorld).1 =
      Res.err (Err.wrap (Err.lib "invalid character")
        "Unable to parse error response-body as json") :=
  ⟨((doRequest_status_table brokenEnv unmarshalUnit (helpscoutApiEndpoint ++ "/users") "GET"
      none none none (some ()) freshWorld ⟨500, "text/html", LibResult.ok "<html>"⟩
      (exampleEnv_accepts _ _) (by decide)).2.2.2.2
      (by decide) (by decide) (by decide) (by decide)).1,
   ((doRequest_status_table brokenEnv unmarshalUnit (helpscoutApiEndpoint ++ "/users") "GET"
      none none none (some ()) freshWorld ⟨500, "text/html", LibResult.ok "<html>"⟩
      (exampleEnv_accepts _ _) (by decide)).2.2.2.2
      (by decide) (by decide) (by decide) (by decide)).2.2.2.2.2
      "<html>" "invalid character" rfl (by decide) rfl⟩

/-! ## C10: the syntax of the conversation search query -/

theorem formatFromToTimePeriod_eq {Time : Type} (T : TimeLib Time) (since till : Time) :
    formatFromToTimePeriod T since till = (renderBound T since, renderBound T till) := by
  unfold formatFromToTimePeriod renderBound
  cases T.IsZero since <;> cases T.IsZero till <;> rfl

/-- C10. For every filter, `prepareListConversationQuery` returns (with a nil error) a query
whose only possible parameter is `query`.  Its value is `(` + the clauses joined by
` AND ` + `)`, where the clauses are, in this order and only for the dimensions that are
set, `(mailboxid:N1 OR mailboxid:N2 ...)` over the mailbox ids in order,
`createdAt:[from TO to]` and `modifiedAt:[from TO to]`, a zero bound being rendered as `*`
and a set bound in the layout `2006-01-02T15:04:05Z`.  When none of the three dimensions is
set (or the filter is nil) there is no `query` parameter: the query is empty. -/
theorem conversation_query_syntax {Time : Type} (T : TimeLib Time)
    (filter : Option (ConversationLookupFilter Time)) :
    prepareListConversationQuery T filter =
      Res.ok (match filter with
        | none => Values.empty
        | some f =>
          if (queryClauses T f).isEmpty = true then Values.empty
          else ⟨[("query", [queryExpression (queryClauses T f)])]⟩) ∧
    (∀ f : ConversationLookupFilter Time, (queryClauses T f).isEmpty = true ↔
      (f.mailboxIds = none ∧ f.createdPeriod = none ∧ f.updatedPeriod = none)) ∧
    (∀ f : ConversationLookupFilter Time, queryClauses T f =
      (match f.mailboxIds with
        | some m => ["(" ++ String.intercalate " OR "
            (m.values.map (fun n => "mailboxid:" ++ toString n)) ++ ")"]
        | none => []) ++
      (match f.createdPeriod with
        | some c => ["createdAt:[" ++ renderBound T c.since ++ " TO " ++
            renderBound T c.till ++ "]"]
        | none => []) ++
      (match f.updatedPeriod with
        | some u => ["modifiedAt:[" ++ renderBound T u.since ++ " TO " ++
            renderBound T u.till ++ "]"]
        | none => [])) := by
  have hc : ("createdAt" : String) ++ ":[" = "createdAt:[" := by decide
  have hm : ("modifiedAt" : String) ++ ":[" = "modifiedAt:[" := by decide
  refine ⟨?_, ?_, ?_⟩
  · cases filter with
    | none => rfl
    | some f =>
      obtain ⟨mb, st, ty, sa, cr, up⟩ := f
      cases mb <;> cases cr <;> cases up <;>
        simp [prepareListConversationQuery, queryClauses, queryExpression, mailboxClause,
          periodClause, formatFromToTimePeriod_eq, Values.Set, Values.empty, hc, hm]
  · intro f
    obtain ⟨mb, st, ty, sa, cr, up⟩ := f
    cases mb <;> cases cr <;> cases up <;> simp [queryClauses]
  · intro f
    obtain ⟨mb, st, ty, sa, cr, up⟩ := f
    cases mb <;> cases cr <;> cases up <;>
      simp [queryClauses, mailboxClause, periodClause, hc, hm]

/-- C10, an example: mailboxes 7 and 9 and a created period with an open end. -/
theorem conversation_query_example :
    prepareListConversationQuery secondsTime (some exampleFilter) =
      Res.ok ⟨[("query", ["((mailboxid:7 OR mailboxid:9) AND createdAt:[5Z TO *])"])]⟩ := by
  decide

/-! ## C8: the request built by `CreateConversation` -/

/-- C8. For every non-empty recipient list `a :: rest` and every cc list, the request built
by `CreateConversation` has exactly one thread, whose `customer.email` is `a` (as is the
`customer.email` of the conversation) and whose cc list is `cc` followed by `rest`, and this
request is the body `CreateConversation` passes to `doApiCall` (POST `/conversations`).
Recipients `[a, b, c]` and cc `[d]` give `customer.email = a` and `cc = [d, b, c]`.  With an
empty recipient list the call panics (index out of range) before anything is sent. -/
theorem create_conversation_request (E : Env) (sender : User) (mailboxId : Nat)
    (cc bcc : List String) (subject body : String) (w : World) :
    (∀ (a : String) (rest : List String),
      ∃ r t, createConversationRequest sender mailboxId (a :: rest) cc bcc subject body =
          Run.done r ∧
        r.Threads = [t] ∧ t.CustomerEmail = a ∧ r.CustomerEmail = a ∧ t.Cc = cc ++ rest ∧
        t.Bcc = bcc ∧ t.Body = body ∧ r.Subject = subject ∧ r.MailboxId = mailboxId ∧
        CreateConversation E sender mailboxId (a :: rest) cc bcc subject body w =
          Run.ofOption (doApiCall E (fun _ (u : Unit) => LibResult.ok u) "POST"
            "/conversations" none (some (ReqData.conversation r)) none w)) ∧
    (∀ (a b c d : String),
      ∃ r t, createConversationRequest sender mailboxId [a, b, c] [d] bcc subject body =
          Run.done r ∧
        r.Threads = [t] ∧ t.CustomerEmail = a ∧ t.Cc = [d, b, c]) ∧
    createConversationRequest sender mailboxId [] cc bcc subject body =
      Run.panic "runtime error: index out of range [0] with length 0" ∧
    CreateConversation E sender mailboxId [] cc bcc subject body w =
      Run.panic "runtime error: index out of range [0] with length 0" := by
  refine ⟨?_, ?_, rfl, rfl⟩
  · intro a rest
    exact ⟨_, _, rfl, rfl, rfl, rfl, rfl, rfl, rfl, rfl, rfl, rfl⟩
  · intro a b c d
    exact ⟨_, _, rfl, rfl, rfl, rfl⟩

/-- C8, an example run: with a valid cached token and a remote side that answers 201, the
one request sent carries the built conversation as its body. -/
theorem create_conversation_example :
    (CreateConversation (exampleEnv (fun _ => jsonAnswer "fresh") (fun _ => statusAnswer 201))
        ⟨3, "user", "Ada", "L", "ada@example.org"⟩ 12 ["a", "b", "c"] ["d"] [] "Hi" "Hello"
        warmWorld) =
      Run.done (Res.ok none,
        sentApi (cachedWorld warmWorld)
          (apiRequest "POST" "/conversations" none
            (some (ReqData.conversation
              { Typ := "email", CustomerEmail := "a", Subject := "Hi", MailboxId := 12,
                Tags := ["upstream"], Status := "active", CreatedBy := 3,
                Threads := [{ Typ := "reply", Body := "Hello", Cc := ["d", "b", "c"],
                              Bcc := [], CustomerEmail := "a" }] }))
            "cached")) := by
  decide

/-! ## Lemmas: the listing loop -/

theorem acceptsAll_nil {α : Type} (lister : Lister α) (seen : List α) :
    acceptsAll lister seen [] := by
  intro i x h
  simp at h

theorem acceptsAll_cons {α : Type} (lister : Lister α) (seen : List α) (x : α)
    (rest : List α) (h : acceptsAll lister seen (x :: rest)) :
    lister seen x = true ∧ acceptsAll lister (seen ++ [x]) rest := by
  constructor
  · have := h 0 x (by simp)
    simpa using this
  · intro i y hy
    have := h (i + 1) y (by simpa using hy)
    simpa using this

theorem acceptsAll_append {α : Type} (lister : Lister α) :
    ∀ (a b seen : List α), acceptsAll lister seen (a ++ b) →
      acceptsAll lister seen a ∧ acceptsAll lister (seen ++ a) b := by
  intro a
  induction a with
  | nil =>
    intro b seen h
    exact ⟨acceptsAll_nil lister seen, by simpa using h⟩
  | cons x rest ih =>
    intro b seen h
    obtain ⟨h0, h1⟩ := acceptsAll_cons lister seen x (rest ++ b) h
    obtain ⟨h2, h3⟩ := ih b (seen ++ [x]) h1
    refine ⟨?_, by simpa using h3⟩
    intro i y hy
    cases i with
    | zero =>
      simp at hy
      subst hy
      simpa using h0
    | succ i =>
      have := h2 i y (by simpa using hy)
      simpa using this

theorem processItems_accepts {α : Type} (lister : Lister α) :
    ∀ (items seen : List α), acceptsAll lister seen items →
      processItems lister items seen = (true, seen ++ items) := by
  intro items
  induction items with
  | nil => intro seen _; simp [processItems]
  | cons x rest ih =>
    intro seen h
    obtain ⟨h0, h1⟩ := acceptsAll_cons lister seen x rest h
    rw [processItems, h0, ih (seen ++ [x]) h1]
    simp

theorem processItems_rejects {α : Type} (lister : Lister α) :
    ∀ (a : List α) (x : α) (b seen : List α), acceptsAll lister seen a →
      lister (seen ++ a) x = false →
      processItems lister (a ++ x :: b) seen = (false, seen ++ a ++ [x]) := by
  intro a
  induction a with
  | nil =>
    intro x b seen _ hx
    simp only [List.append_nil] at hx
    simp [processItems, hx]
  | cons y rest ih =>
    intro x b seen h hx
    obtain ⟨h0, h1⟩ := acceptsAll_cons lister seen y rest h
    have hx2 : lister (seen ++ [y] ++ rest) x = false := by simpa using hx
    have := ih x b (seen ++ [y]) h1 hx2
    simp only [List.cons_append, processItems, h0]
    simpa using this

theorem itemsOf_append {α : Type} (a b : List (ListPage α)) :
    itemsOf (a ++ b) = itemsOf a ++ itemsOf b := by
  induction a with
  | nil => rfl
  | cons p rest ih => simp [itemsOf, ih]

/-- One authenticated call with a valid cached token and an answer that is a success. -/
theorem doApiCall_cached {ρ : Type} (E : Env) (unmarshal : String → ρ → LibResult ρ)
    (method resource : String) (query : Option Values)
    (reqData : Option ReqData) (respData v : Option ρ) (w : World)
    (hE : E.accepts) (hres : resource ≠ "/oauth2/token")
    (htok : w.token ≠ "") (hexp : w.tokenExpireTime > E.clock w.clockReads + tenMinutes)
    (hok : answerResult E unmarshal respData (E.apiAnswer w.apiSent) = Res.ok v) :
    doApiCall E unmarshal method resource query reqData respData w =
      some (Res.ok v, sentApi (cachedWorld w)
        (apiRequest method resource query reqData w.token)) := by
  have hurl := apiUrl_ne_authEndpoint resource hres
  have hTok := getToken_cached E false w ⟨rfl, htok, hexp⟩
  exact doApiCallLoop_ret E unmarshal method resource query reqData respData 3 0 false
    w (cachedWorld w) _ w.token (Res.ok v) hTok
    (doApiCallInner_other E unmarshal _ method _ query reqData respData hE hurl 10 0
      (cachedWorld w) (Res.ok v) hok (by simp) (by simp))

theorem servesPages_head {α : Type} (E : Env)
    (unmarshal : String → ListPage α → LibResult (ListPage α)) (w : World)
    (p : ListPage α) (rest : List (ListPage α)) (h : servesPages E unmarshal w (p :: rest)) :
    answerResult E unmarshal (some ListPage.zero) (E.apiAnswer w.apiSent) = Res.ok (some p) := by
  have := h.2.2 0 p (by simp)
  simpa using this

theorem servesPages_tail {α : Type} (E : Env)
    (unmarshal : String → ListPage α → LibResult (ListPage α)) (w : World)
    (p : ListPage α) (rest : List (ListPage α)) (resource : String) (query : Values)
    (h : servesPages E unmarshal w (p :: rest)) :
    servesPages E unmarshal (pageWorld w resource query) rest := by
  obtain ⟨h1, h2, h3⟩ := h
  refine ⟨h1, h2, ?_⟩
  intro i q hq
  have := h3 (i + 1) q (by simpa using hq)
  have hi : (pageWorld w resource query).apiSent + i = w.apiSent + (i + 1) := by
    show w.apiSent + 1 + i = w.apiSent + (i + 1)
    omega
  rw [hi]; exact this

/-- One round of the listing loop, with a valid cached token and a served page. -/
theorem listLoop_step {α : Type} (E : Env)
    (unmarshal : String → ListPage α → LibResult (ListPage α)) (resource : String)
    (lister : Lister α) (hE : E.accepts) (hres : resource ≠ "/oauth2/token")
    (fuel : Nat) (page : Int) (query : Values) (seen : List α) (w : World)
    (p : ListPage α) (rest : List (ListPage α))
    (h : servesPages E unmarshal w (p :: rest)) :
    listLoop E unmarshal resource lister (fuel + 1) page query seen w =
      if p.Page.TotalPages = 0 then
        some (none, query, seen, pageWorld w resource query)
      else
        match processItems lister p.items seen with
        | (false, seen1) =>
          some (some Err.interrupted, query, seen1, pageWorld w resource query)
        | (true, seen1) =>
          if p.Page.Number = p.Page.TotalPages then
            some (none, query, seen1, pageWorld w resource query)
          else
            listLoop E unmarshal resource lister fuel (page + 1)
              (query.Set "page" (toString (page + 1))) seen1 (pageWorld w resource query) := by
  have hc := doApiCall_cached E unmarshal "GET" resource (some query) none
    (some ListPage.zero) (some p) w hE hres h.1 (h.2.1 _)
    (servesPages_head E unmarshal w p rest h)
  rw [listLoop, hc]
  rfl

theorem afterPages_fields (resource : String) :
    ∀ (n : Nat) (page : Int) (query : Values) (w : World),
      (afterPages resource n page query w).2.2.apiSent = w.apiSent + n ∧
      (afterPages resource n page query w).2.2.authSent = w.authSent ∧
      (afterPages resource n page query w).2.2.token = w.token ∧
      (afterPages resource n page query w).2.2.tokenExpireTime = w.tokenExpireTime := by
  intro n
  induction n with
  | zero => intro page query w; exact ⟨rfl, rfl, rfl, rfl⟩
  | succ n ih =>
    intro page query w
    obtain ⟨h1, h2, h3, h4⟩ := ih (page + 1) (query.Set "page" (toString (page + 1)))
      (pageWorld w resource query)
    refine ⟨?_, ?_, ?_, ?_⟩
    · show (afterPages resource n _ _ (pageWorld w resource query)).2.2.apiSent = _
      rw [h1]
      show w.apiSent + 1 + n = w.apiSent + (n + 1)
      omega
    · show (afterPages resource n _ _ (pageWorld w resource query)).2.2.authSent = _
      rw [h2]; rfl
    · show (afterPages resource n _ _ (pageWorld w resource query)).2.2.token = _
      rw [h3]; rfl
    · show (afterPages resource n _ _ (pageWorld w resource query)).2.2.tokenExpireTime = _
      rw [h4]; rfl

theorem servesPages_after {α : Type} (E : Env)
    (unmarshal : String → ListPage α → LibResult (ListPage α)) (resource : String) :
    ∀ (pre rest : List (ListPage α)) (page : Int) (query : Values) (w : World),
      servesPages E unmarshal w (pre ++ rest) →
      servesPages E unmarshal (afterPages resource pre.length page query w).2.2 rest := by
  intro pre
  induction pre with
  | nil => intro rest page query w h; exact h
  | cons p pre ih =>
    intro rest page query w h
    exact ih rest (page + 1) (query.Set "page" (toString (page + 1)))
      (pageWorld w resource query)
      (servesPages_tail E unmarshal w p (pre ++ rest) resource query h)

/-- The listing loop over pages after which it goes on, all of whose items the callback
accepts. -/
theorem listLoop_pages {α : Type} (E : Env)
    (unmarshal : String → ListPage α → LibResult (ListPage α)) (resource : String)
    (lister : Lister α) (hE : E.accepts) (hres : resource ≠ "/oauth2/token") :
    ∀ (pre rest : List (ListPage α)) (fuel : Nat) (page : Int) (query : Values)
      (seen : List α) (w : World),
      servesPages E unmarshal w (pre ++ rest) → (∀ p, p ∈ pre → continues p) →
      acceptsAll lister seen (itemsOf pre) →
      listLoop E unmarshal resource lister (fuel + pre.length) page query seen w =
        listLoop E unmarshal resource lister fuel
          (afterPages resource pre.length page query w).1
          (afterPages resource pre.length page query w).2.1
          (seen ++ itemsOf pre)
          (afterPages resource pre.length page query w).2.2 := by
  intro pre
  induction pre with
  | nil =>
    intro rest fuel page query seen w _ _ _
    simp [itemsOf, afterPages]
  | cons p pre ih =>
    intro rest fuel page query seen w hs hc ha
    obtain ⟨hp1, hp2⟩ := hc p (by simp)
    obtain ⟨ha1, ha2⟩ := acceptsAll_append lister p.items (itemsOf pre) seen ha
    have hstep := listLoop_step E unmarshal resource lister hE hres (fuel + pre.length)
      page query seen w p (pre ++ rest) hs
    rw [show fuel + (p :: pre).length = fuel + pre.length + 1 from rfl, hstep,
      if_neg hp1, processItems_accepts lister p.items seen ha1]
    simp only [if_neg hp2]
    rw [ih rest fuel (page + 1) (query.Set "page" (toString (page + 1))) (seen ++ p.items)
      (pageWorld w resource query)
      (servesPages_tail E unmarshal w p (pre ++ rest) resource query hs)
      (fun q hq => hc q (by simp [hq])) ha2]
    simp only [itemsOf, List.append_assoc]
    rfl

/-- The listing loop meets the pagination contract, whatever the page counter and the
query it starts with. -/
theorem listLoop_contract {α : Type} (E : Env)
    (unmarshal : String → ListPage α → LibResult (ListPage α)) (resource : String)
    (lister : Lister α) (page : Int) (query : Values)
    (hE : E.accepts) (hres : resource ≠ "/oauth2/token") :
    PaginationContract E unmarshal lister
      (fun fuel seen w =>
        (listLoop E unmarshal resource lister fuel page query seen w).map
          (fun r => (r.1, r.2.2.1, r.2.2.2))) := by
  intro w seen pages hs
  refine ⟨?_, ?_, ?_⟩
  · intro p rest hp h0 fuel hf
    subst hp
    obtain ⟨f, rfl⟩ : ∃ f, fuel = f + 1 := ⟨fuel - 1, by omega⟩
    dsimp only
    rw [listLoop_step E unmarshal resource lister hE hres f page query seen w p rest hs,
      if_pos h0]
    exact ⟨_, rfl, rfl⟩
  · intro pre last hp hc h0 hn ha fuel hf
    subst hp
    have hlen : (pre ++ [last]).length = pre.length + 1 := by simp
    obtain ⟨f, rfl⟩ : ∃ f, fuel = f + 1 + pre.length := ⟨fuel - 1 - pre.length, by omega⟩
    rw [itemsOf_append] at ha
    obtain ⟨ha1, ha2⟩ := acceptsAll_append lister (itemsOf pre) (itemsOf [last]) seen ha
    have ha3 : acceptsAll lister (seen ++ itemsOf pre) last.items := by
      simpa [itemsOf] using ha2
    obtain ⟨f1, _, _, _⟩ := afterPages_fields resource pre.length page query w
    dsimp only
    rw [listLoop_pages E unmarshal resource lister hE hres pre [last] (f + 1) page query
        seen w hs hc ha1,
      listLoop_step E unmarshal resource lister hE hres f _ _ _ _ last []
        (servesPages_after E unmarshal resource pre [last] page query w hs),
      if_neg h0, processItems_accepts lister last.items _ ha3]
    simp only [if_pos hn]
    refine ⟨pageWorld (afterPages resource pre.length page query w).2.2 resource
      (afterPages resource pre.length page query w).2.1, ?_, ?_⟩
    · simp [itemsOf_append, itemsOf]
    · show (afterPages resource pre.length page query w).2.2.apiSent + 1 = _
      rw [f1, hlen, Nat.add_assoc]
  · intro pre cur a x b hp hc h0 hi ha hx fuel hf
    subst hp
    have hlen : (pre ++ [cur]).length = pre.length + 1 := by simp
    obtain ⟨f, rfl⟩ : ∃ f, fuel = f + 1 + pre.length := ⟨fuel - 1 - pre.length, by omega⟩
    obtain ⟨ha1, ha2⟩ := acceptsAll_append lister (itemsOf pre) a seen ha
    have hx2 : lister (seen ++ itemsOf pre ++ a) x = false := by
      rw [List.append_assoc]; exact hx
    obtain ⟨f1, _, _, _⟩ := afterPages_fields resource pre.length page query w
    dsimp only
    rw [listLoop_pages E unmarshal resource lister hE hres pre [cur] (f + 1) page query
        seen w hs hc ha1,
      listLoop_step E unmarshal resource lister hE hres f _ _ _ _ cur []
        (servesPages_after E unmarshal resource pre [cur] page query w hs),
      if_neg h0, hi, processItems_rejects lister a x b _ ha2 hx2]
    refine ⟨pageWorld (afterPages resource pre.length page query w).2.2 resource
      (afterPages resource pre.length page query w).2.1, ?_, ?_⟩
    · simp [List.append_assoc]
    · show (afterPages resource pre.length page query w).2.2.apiSent + 1 = _
      rw [f1, hlen, Nat.add_assoc]

theorem threads_resource_ne (conversationId : Nat) :
    "/conversations/" ++ toString conversationId ++ "/threads" ≠ "/oauth2/token" := by
  intro h
  have h1 := congrArg String.data h
  rw [String.data_append, String.data_append] at h1
  have h2 : ("/conversations/" : String).data = '/' :: 'c' :: ("onversations/" : String).data := by
    decide
  have h3 : ("/oauth2/token" : String).data = '/' :: 'o' :: ("auth2/token" : String).data := by
    decide
  rw [h2, h3] at h1
  simp only [List.cons_append, List.cons.injEq, true_and] at h1
  exact absurd h1.1 (by decide)

/-! ## C6: termination of the paginated listings -/

/-- C6. Each paginated listing (`listConversationsImpl`, `ListThreads`, `ListUsers`) meets
the pagination contract, for every callback and every sequence of successful page
responses: the callback is invoked on the items of the pages in order; if the first
response has `totalPages = 0` the listing returns nil with no callback invocation; if a
response has `number = totalPages` the listing returns nil after processing that page's
items and requests no further page; and if the callback returns false on an item the
listing returns `ErrorInterrupted` at once, the callback is invoked on no later item and no
further page is requested. -/
theorem pagination_termination (E : Env) (hE : E.accepts) :
    (∀ {Conversation : Type}
      (unmarshal : String → ListPage Conversation → LibResult (ListPage Conversation))
      (query : Values) (lister : Lister Conversation),
      PaginationContract E unmarshal lister
        (fun fuel seen w =>
          (listConversationsImpl E unmarshal query lister fuel seen w).map
            (fun r => (r.1, r.2.2.1, r.2.2.2)))) ∧
    (∀ {Thread : Type} (unmarshal : String → ListPage Thread → LibResult (ListPage Thread))
      (conversationId : Nat) (lister : Lister Thread),
      PaginationContract E unmarshal lister
        (fun fuel seen w =>
          (ListThreads E unmarshal conversationId lister fuel seen w).map
            (fun r => (r.1, r.2.2.1, r.2.2.2)))) ∧
    (∀ (unmarshal : String → ListPage User → LibResult (ListPage User))
      (lister : Lister User),
      PaginationContract E unmarshal lister
        (fun fuel seen w =>
          (ListUsers E unmarshal lister fuel seen w).map
            (fun r => (r.1, r.2.2.1, r.2.2.2)))) := by
  refine ⟨?_, ?_, ?_⟩
  · intro Conversation unmarshal query lister
    exact listLoop_contract E unmarshal "/conversations" lister 1 (query.Del "page") hE
      (by decide)
  · intro Thread unmarshal conversationId lister
    exact listLoop_contract E unmarshal _ lister 1 Values.empty hE
      (threads_resource_ne conversationId)
  · intro unmarshal lister
    exact listLoop_contract E unmarshal "/users" lister 1 Values.empty hE (by decide)

theorem warmWorld_valid : warmWorld.tokenExpireTime > (0 : Int) + tenMinutes := by
  decide

theorem twoPagesEnv_serves :
    servesPages twoPagesEnv unmarshalUsers warmWorld [usersPage1, usersPage2] := by
  refine ⟨by decide, fun _ => warmWorld_valid, ?_⟩
  intro i p h
  match i, h with
  | 0, h =>
    simp only [List.getElem?_cons_zero, Option.some.injEq] at h
    subst h
    rfl
  | 1, h =>
    simp only [List.getElem?_cons_succ, List.getElem?_cons_zero, Option.some.injEq] at h
    subst h
    rfl
  | n + 2, h => simp at h

theorem twoPagesEnv_serves_first :
    servesPages twoPagesEnv unmarshalUsers warmWorld [usersPage1] := by
  refine ⟨by decide, fun _ => warmWorld_valid, ?_⟩
  intro i p h
  match i, h with
  | 0, h =>
    simp only [List.getElem?_cons_zero, Option.some.injEq] at h
    subst h
    rfl
  | n + 1, h => simp at h

theorem noResultsEnv_serves :
    servesPages noResultsEnv unmarshalUsers warmWorld [usersNone] := by
  refine ⟨by decide, fun _ => warmWorld_valid, ?_⟩
  intro i p h
  match i, h with
  | 0, h =>
    simp only [List.getElem?_cons_zero, Option.some.injEq] at h
    subst h
    rfl
  | n + 1, h => simp at h

/-- C6, witness: `ListUsers` over two pages of users.  Without results the callback is not
invoked; a callback that accepts everything sees the three users in order and two pages are
requested; a callback that stops at the second user sees the first two users only, the
result is `ErrorInterrupted` and the second page is not requested. -/
theorem pagination_termination_witness :
    (∃ w1, (ListUsers noResultsEnv unmarshalUsers acceptEvery 1 [] warmWorld).map
        (fun r => (r.1, r.2.2.1, r.2.2.2)) = some (none, [], w1) ∧
      w1.apiSent = warmWorld.apiSent + 1) ∧
    (∃ w1, (ListUsers twoPagesEnv unmarshalUsers acceptEvery 2 [] warmWorld).map
        (fun r => (r.1, r.2.2.1, r.2.2.2)) =
        some (none, [] ++ itemsOf [usersPage1, usersPage2], w1) ∧
      w1.apiSent = warmWorld.apiSent + [usersPage1, usersPage2].length) ∧
    (∃ w1, (ListUsers twoPagesEnv unmarshalUsers stopAtB 1 [] warmWorld).map
        (fun r => (r.1, r.2.2.1, r.2.2.2)) =
        some (some Err.interrupted, [] ++ (itemsOf [] ++ [userA]) ++ [userB], w1) ∧
      w1.apiSent = warmWorld.apiSent + [usersPage1].length) :=
  ⟨((pagination_termination noResultsEnv (exampleEnv_accepts _ _)).2.2 unmarshalUsers
      acceptEvery warmWorld [] [usersNone] noResultsEnv_serves).1
      usersNone [] rfl rfl 1 (Nat.le_refl 1),
   ((pagination_termination twoPagesEnv (exampleEnv_accepts _ _)).2.2 unmarshalUsers
      acceptEvery warmWorld [] [usersPage1, usersPage2] twoPagesEnv_serves).2.1
      [usersPage1] usersPage2 rfl
      (fun p hp => by
        simp only [List.mem_singleton] at hp
        subst hp
        exact ⟨by decide, by decide⟩)
      (by decide) rfl (fun _ _ _ => rfl) 2 (Nat.le_refl 2),
   ((pagination_termination twoPagesEnv (exampleEnv_accepts _ _)).2.2 unmarshalUsers
      stopAtB warmWorld [] [usersPage1] twoPagesEnv_serves_first).2.2
      [] usersPage1 [userA] userB [] rfl
      (fun p hp => by simp at hp)
      (by decide) rfl
      (fun i x h => by
        match i, h with
        | 0, h =>
          simp only [itemsOf, List.nil_append, List.getElem?_cons_zero,
            Option.some.injEq] at h
          subst h
          rfl
        | n + 1, h => simp [itemsOf] at h)
      rfl 1 (Nat.le_refl 1)⟩

/-! ## C7: the exclusive status filter -/

theorem mem_foldl_filter (values : List String) :
    ∀ (m : List String) (s : String),
      s ∈ values.foldl (fun m v => m.filter (fun k => k != v)) m ↔ s ∈ m ∧ s ∉ values := by
  induction values with
  | nil => intro m s; simp
  | cons v rest ih =>
    intro m s
    rw [List.foldl_cons, ih]
    simp only [List.mem_filter, bne_iff_ne, ne_eq, List.mem_cons, not_or]
    tauto

theorem nodup_foldl_filter (values : List String) :
    ∀ (m : List String), m.Nodup →
      (values.foldl (fun m v => m.filter (fun k => k != v)) m).Nodup := by
  induction values with
  | nil => intro m h; exact h
  | cons v rest ih =>
    intro m h
    rw [List.foldl_cons]
    exact ih _ (h.filter _)

theorem prepareListOfStatuses_exclusively {Time : Type} (R : MapRange)
    (f : ConversationLookupFilter Time) (values : List String) :
    prepareListOfStatuses R (some { f with statuses := some ⟨Exclusively, values⟩ }) =
      Run.done (R.keys (remainingStatuses values)) := by
  have h1 : ¬ (Exclusively = Inclusively) := by decide
  simp only [prepareListOfStatuses, h1, if_false, if_true, List.nil_append]
  rfl

theorem values_get_set (q : Values) (key value : String) :
    (q.Set key value).Get key = value := by
  obtain ⟨l⟩ := q
  unfold Values.Set Values.Get
  by_cases h : (l.any (fun p => p.1 == key)) = true
  · simp only [h, if_true]
    induction l with
    | nil => simp at h
    | cons a rest ih =>
      by_cases ha : (a.1 == key) = true
      · simp [List.find?, ha]
      · have hr : (rest.any (fun p => p.1 == key)) = true := by
          simp only [List.any_cons, Bool.or_eq_true] at h
          rcases h with h | h
          · exact absurd h ha
          · exact h
        simp only [List.map_cons, ha, List.find?]
        simpa [ha] using ih hr
  · simp only [h, if_false]
    have hn : ∀ p ∈ l, (p.1 == key) = false := by
      intro p hp
      by_contra hc
      apply h
      simp only [List.any_eq_true]
      exact ⟨p, hp, by simpa using hc⟩
    have hfind : ∀ (l : List (String × List String)), (∀ p ∈ l, (p.1 == key) = false) →
        (l ++ [(key, [value])]).find? (fun p => p.1 == key) = some (key, [value]) := by
      intro l
      induction l with
      | nil => intro _; simp [List.find?]
      | cons a rest ih =>
        intro hl
        have ha := hl a (by simp)
        simp only [List.cons_append, List.find?, ha]
        exact ih (fun p hp => hl p (by simp [hp]))
    simp only [Bool.false_eq_true, if_false]
    rw [hfind l hn]

theorem values_get_del (q : Values) (key other : String) (h : key ≠ other) :
    (q.Del other).Get key = q.Get key := by
  obtain ⟨l⟩ := q
  unfold Values.Del Values.Get
  have hfind : (l.filter (fun p => p.1 != other)).find? (fun p => p.1 == key) =
      l.find? (fun p => p.1 == key) := by
    induction l with
    | nil => rfl
    | cons a rest ih =>
      by_cases ha : (a.1 == key) = true
      · have hk : a.1 = key := by simpa using ha
        have ho : (a.1 != other) = true := by
          simp only [bne_iff_ne, ne_eq, hk]
          exact h
        simp [List.filter, ho, List.find?, ha]
      · by_cases ho : (a.1 != other) = true
        · simp only [List.filter, ho, List.find?, ha]
          exact ih
        · simp only [List.filter, ho, List.find?, ha]
          exact ih
  simp only [hfind]

theorem statusQueries_status (statuses : List String) :
    ∀ q : Values, (statusQueries q statuses).map (fun v => v.Get "status") = statuses := by
  induction statuses with
  | nil => intro q; rfl
  | cons st rest ih =>
    intro q
    simp only [statusQueries, List.map_cons, ih]
    rw [values_get_del _ "status" "page" (by decide), values_get_set]

theorem pageWorld_fields (w : World) (resource : String) (query : Values)
    (hres : resource ≠ "/oauth2/token") :
    (pageWorld w resource query).token = w.token ∧
    (pageWorld w resource query).tokenExpireTime = w.tokenExpireTime ∧
    apiRequests (pageWorld w resource query).log =
      apiRequests w.log ++ [apiRequest "GET" resource (some query) none w.token] := by
  refine ⟨rfl, rfl, ?_⟩
  show apiRequests (w.log ++ [Event.tokenCall false] ++ [Event.request _]) = _
  simp [apiRequests, apiRequest_url, apiUrl_ne_authEndpoint resource hres]

/-- The per-status loop of `ListConversations` when no traversal has results: each status
costs one request, whose query has that status. -/
theorem listConversationsStatuses_noResults {α : Type} (E : Env)
    (unmarshal : String → ListPage α → LibResult (ListPage α)) (lister : Lister α)
    (hE : E.accepts) (hserve : servesNoResults E unmarshal) (fuel : Nat) :
    ∀ (statuses : List String) (query : Values) (seen : List α) (w : World),
      w.token ≠ "" → (∀ k, w.tokenExpireTime > E.clock k + tenMinutes) →
      ∃ q1 w1, listConversationsStatuses E unmarshal lister (fuel + 1) statuses query seen w =
          some (none, q1, seen, w1) ∧
        apiRequests w1.log = apiRequests w.log ++
          (statusQueries query statuses).map
            (fun q => apiRequest "GET" "/conversations" (some q) none w.token) := by
  intro statuses
  induction statuses with
  | nil =>
    intro query seen w _ _
    exact ⟨query, w, rfl, by simp [statusQueries]⟩
  | cons st rest ih =>
    intro query seen w htok hexp
    obtain ⟨p, hp, h0⟩ := hserve w.apiSent
    have hs : servesPages E unmarshal w [p] := by
      refine ⟨htok, hexp, ?_⟩
      intro i q hq
      match i, hq with
      | 0, hq =>
        simp only [List.getElem?_cons_zero, Option.some.injEq] at hq
        subst hq
        exact hp
      | n + 1, hq => simp at hq
    have hstep := listLoop_step E unmarshal "/conversations" lister hE (by decide) fuel 1
      ((query.Set "status" st).Del "page") seen w p [] hs
    rw [if_pos h0] at hstep
    obtain ⟨f1, f2, f3⟩ := pageWorld_fields w "/conversations"
      ((query.Set "status" st).Del "page") (by decide)
    obtain ⟨q1, w1, hrun, hlog⟩ := ih ((query.Set "status" st).Del "page") seen
      (pageWorld w "/conversations" ((query.Set "status" st).Del "page"))
      (by rw [f1]; exact htok) (by rw [f2]; exact hexp)
    refine ⟨q1, w1, ?_, ?_⟩
    · rw [listConversationsStatuses, listConversationsImpl, hstep]
      exact hrun
    · rw [hlog, f3, f1]
      simp [statusQueries]

/-- C7. For every list of status values `V` set with condition `Exclusively`,
`prepareListOfStatuses` returns, without duplicates and in the order of the map iteration,
exactly the statuses of the universe {open, closed, active, pending, spam} that are not in
`V` (values of `V` outside the universe are ignored); `V = [open, closed]` gives an
arrangement of [active, pending, spam].  `ListConversations` then runs its traversals over
exactly these statuses, in that order, each with the `status` parameter of the query set to
the status: it is the per-status loop over the returned list, and when no traversal has
results it returns nil after exactly one request per returned status, whose query carries
that status. -/
theorem exclusive_status_filter {Time : Type} (R : MapRange)
    (f : ConversationLookupFilter Time) (V : List String) :
    f.Status V [Exclusively] = Run.done { f with statuses := some ⟨Exclusively, V⟩ } ∧
    (∃ r, prepareListOfStatuses R (some { f with statuses := some ⟨Exclusively, V⟩ }) =
        Run.done r ∧
      r.Nodup ∧ (∀ s, s ∈ r ↔ (s ∈ statusUniverse ∧ s ∉ V)) ∧
      r.Perm (remainingStatuses V)) ∧
    (∃ r, prepareListOfStatuses R
        (some { f with statuses := some ⟨Exclusively,
          [ConversationStatusOpen, ConversationStatusClosed]⟩ }) = Run.done r ∧
      r.Perm [ConversationStatusActive, ConversationStatusPending, ConversationStatusSpam]) ∧
    (∀ {Conversation : Type} (E : Env) (T : TimeLib Time)
      (unmarshal : String → ListPage Conversation → LibResult (ListPage Conversation))
      (lister : Lister Conversation) (fuel : Nat) (seen : List Conversation) (w : World),
      ∃ query, prepareListConversationQuery T
          (some { f with statuses := some ⟨Exclusively, V⟩ }) = Res.ok query ∧
        ListConversations E T R unmarshal (some { f with statuses := some ⟨Exclusively, V⟩ })
            lister fuel seen w =
          Run.ofOption (listConversationsStatuses E unmarshal lister fuel
            (R.keys (remainingStatuses V)) query seen w) ∧
        (E.accepts → servesNoResults E unmarshal → w.token ≠ "" →
          (∀ k, w.tokenExpireTime > E.clock k + tenMinutes) → 1 ≤ fuel →
          ∃ q1 w1, ListConversations E T R unmarshal
              (some { f with statuses := some ⟨Exclusively, V⟩ }) lister fuel seen w =
              Run.done (none, q1, seen, w1) ∧
            apiRequests w1.log = apiRequests w.log ++
              (statusQueries query (R.keys (remainingStatuses V))).map
                (fun q => apiRequest "GET" "/conversations" (some q) none w.token) ∧
            (statusQueries query (R.keys (remainingStatuses V))).map
              (fun v => v.Get "status") = R.keys (remainingStatuses V))) := by
  have hprep := prepareListOfStatuses_exclusively R f V
  refine ⟨rfl, ?_, ?_, ?_⟩
  · refine ⟨_, hprep, ?_, ?_, R.perm _⟩
    · exact (R.perm _).nodup_iff.mpr (nodup_foldl_filter V statusUniverse (by decide))
    · intro s
      rw [(R.perm _).mem_iff]
      exact mem_foldl_filter V statusUniverse s
  · refine ⟨_, prepareListOfStatuses_exclusively R f _, ?_⟩
    have : remainingStatuses [ConversationStatusOpen, ConversationStatusClosed] =
        [ConversationStatusActive, ConversationStatusPending, ConversationStatusSpam] := by
      decide
    rw [← this]
    exact R.perm _
  · intro Conversation E T unmarshal lister fuel seen w
    have hq : ∃ query, prepareListConversationQuery T
        (some { f with statuses := some ⟨Exclusively, V⟩ }) = Res.ok query := by
      simp only [prepareListConversationQuery]
      exact ⟨_, rfl⟩
    obtain ⟨query, hquery⟩ := hq
    have hrun : ListConversations E T R unmarshal
        (some { f with statuses := some ⟨Exclusively, V⟩ }) lister fuel seen w =
        Run.ofOption (listConversationsStatuses E unmarshal lister fuel
          (R.keys (remainingStatuses V)) query seen w) := by
      simp only [ListConversations, hquery, hprep, Option.isNone_some, Bool.false_eq_true,
        if_false]
    refine ⟨query, hquery, hrun, ?_⟩
    intro hE hserve htok hexp hfuel
    obtain ⟨f0, rfl⟩ : ∃ f0, fuel = f0 + 1 := ⟨fuel - 1, by omega⟩
    obtain ⟨q1, w1, h1, h2⟩ := listConversationsStatuses_noResults E unmarshal lister hE
      hserve f0 (R.keys (remainingStatuses V)) query seen w htok hexp
    refine ⟨q1, w1, ?_, h2, statusQueries_status _ _⟩
    rw [hrun, h1]
    rfl

/-- C7, witness: excluding `open` and `closed`, with a map iteration in reverse order and a
remote side without results: three requests, for `spam`, `pending` and `active`. -/
theorem exclusive_status_filter_witness :
    ∃ q1 w1, ListConversations noResultsEnv secondsTime reverseOrder unmarshalNoConversations
        (some { excludeOpenClosed with statuses := some ⟨Exclusively,
          [ConversationStatusOpen, ConversationStatusClosed]⟩ }) (fun _ _ => true) 1 []
        warmWorld = Run.done (none, q1, [], w1) ∧
      apiRequests w1.log = apiRequests warmWorld.log ++
        (statusQueries Values.empty (reverseOrder.keys
          (remainingStatuses [ConversationStatusOpen, ConversationStatusClosed]))).map
          (fun q => apiRequest "GET" "/conversations" (some q) none warmWorld.token) ∧
      (statusQueries Values.empty (reverseOrder.keys
          (remainingStatuses [ConversationStatusOpen, ConversationStatusClosed]))).map
        (fun v => v.Get "status") =
        reverseOrder.keys (remainingStatuses [ConversationStatusOpen, ConversationStatusClosed]) := by
  obtain ⟨query, hq, _, h⟩ := (exclusive_status_filter reverseOrder excludeOpenClosed
    [ConversationStatusOpen, ConversationStatusClosed]).2.2.2 noResultsEnv secondsTime
    unmarshalNoConversations (fun _ _ => true) 1 [] warmWorld
  have hq2 : query = Values.empty := by
    have : prepareListConversationQuery secondsTime
        (some { excludeOpenClosed with statuses := some ⟨Exclusively,
          [ConversationStatusOpen, ConversationStatusClosed]⟩ }) = Res.ok Values.empty := rfl
    rw [this] at hq
    exact (Res.ok.inj hq).symm
  subst hq2
  exact h (exampleEnv_accepts _ _) (fun _ => ⟨_, rfl, rfl⟩) (by decide)
    (fun _ => warmWorld_valid) (Nat.le_refl 1)

/-! ## C11: the absent filter -/

/-- C11. What the code does with an absent (nil) filter.  `prepareListConversationQuery`
accepts it and returns the empty query with a nil error, but `ListConversations` then reads
`filter.statuses` and panics with a nil pointer dereference, whatever the remote side, the
client, the callback and the fuel: no traversal is run, nothing is sent and the callback is
not invoked.  With a filter that is present and has nothing set, `ListConversations` is the
one unfiltered traversal with the empty query, and returns that traversal's result. -/
theorem nil_filter_panics {Time Conversation : Type} (E : Env) (T : TimeLib Time)
    (R : MapRange)
    (unmarshal : String → ListPage Conversation → LibResult (ListPage Conversation))
    (lister : Lister Conversation) (fuel : Nat) (seen : List Conversation) (w : World) :
    prepareListConversationQuery T (none : Option (ConversationLookupFilter Time)) =
      Res.ok Values.empty ∧
    ListConversations E T R unmarshal (none : Option (ConversationLookupFilter Time))
        lister fuel seen w =
      Run.panic "runtime error: invalid memory address or nil pointer dereference" ∧
    ListConversations E T R unmarshal (some NewConversationLookupFilter) lister fuel seen w =
      Run.ofOption (listConversationsImpl E unmarshal Values.empty lister fuel seen w) := by
  refine ⟨rfl, rfl, ?_⟩
  simp [ListConversations, prepareListConversationQuery, NewConversationLookupFilter,
    Values.empty]

/-- C11, an example run: a client with a valid cached token and a remote side without
results.  With a nil filter the call panics; with an empty filter it returns nil after one
request whose query is empty. -/
theorem nil_filter_example :
    ListConversations noResultsEnv secondsTime listedOrder unmarshalNoConversations
        none (fun _ _ => true) 1 [] warmWorld =
      Run.panic "runtime error: invalid memory address or nil pointer dereference" ∧
    ListConversations noResultsEnv secondsTime listedOrder unmarshalNoConversations
        (some NewConversationLookupFilter) (fun _ _ => true) 1 [] warmWorld =
      Run.done (none, Values.empty, [],
        sentApi (cachedWorld warmWorld)
          (apiRequest "GET" "/conversations" (some Values.empty) none "cached")) := by
  decide

end Helpscout
